import Mathlib

/-!
Shallow embedding of the order-fulfillment and wallet-ledger engine of the
marketplace server (src/server/routes.ts, src/server/customAuth.ts,
src/shared/schema.ts).

Modelling conventions:
* Monetary amounts are integers in hundredths of the currency unit (cents);
  the decimal(18,2) columns of the schema hold exactly such values.  The
  JavaScript `toFixed(2)` applied after a percentage multiplication is
  modelled as round-half-up to whole cents (the rounding convention the
  specification states in section 4.2).
* Timestamps are natural numbers (milliseconds).
* Each `await storage.op(...)` is one atomic step against the store; the
  handlers run the steps in program order with no enclosing transaction,
  exactly as the source does.  `postOrders` takes an optional fault index:
  `faultHit failAt k` models the k-th storage call of the wallet branch
  throwing (a database error); the surrounding try/catch of the route then
  returns an error response without compensating the already committed
  steps, which is what the source code does.
* Database reads with `limit 1` return the first matching row in store
  order; `returning()` rows are reconstructed from the written values.
* Notifications and admin-log writes are fire-and-forget side effects with
  no bearing on the modelled state and are omitted.
-/

namespace Mmo

/-- Product category (productCategoryEnum): discrete account stock vs software downloads. -/
inductive Category
  | account
  | software
deriving DecidableEq

/-- Inventory unit status (productItemStatusEnum in schema.ts). -/
inductive ItemStatus
  | available
  | reserved
  | sold
deriving DecidableEq

/-- Order status (orderStatusEnum in schema.ts). -/
inductive OrderStatus
  | pendingPayment
  | pendingConfirmation
  | paid
  | cancelled
  | refunded
deriving DecidableEq

/-- Payment method (paymentMethodEnum in schema.ts): prepaid wallet or QR transfer. -/
inductive PaymentMethod
  | wallet
  | qr
deriving DecidableEq

/-- Wallet transaction direction (transactionTypeEnum in schema.ts). -/
inductive TxType
  | credit
  | debit
deriving DecidableEq

/-- Pending earning status (pendingEarningStatusEnum in schema.ts). -/
inductive EarningStatus
  | pending
  | released
  | cancelled
deriving DecidableEq

/-- Row of the users table (the fields the engine touches). -/
structure User where
  id : Nat
  walletBalance : Int
deriving DecidableEq

/-- Row of the products table (the fields the engine touches). -/
structure Product where
  id : Nat
  sellerId : Nat
  category : Category
  price : Int
  stock : Int
deriving DecidableEq

/-- Row of the product_items table. -/
structure ProductItem where
  id : Nat
  productId : Nat
  content : String
  status : ItemStatus
  reservedUntil : Option Nat
deriving DecidableEq

/-- Row of the orders table. -/
structure Order where
  id : Nat
  buyerId : Nat
  sellerId : Nat
  productId : Nat
  productItemId : Option Nat
  quantity : Nat
  price : Int
  paymentMethod : PaymentMethod
  status : OrderStatus
  deliveredContent : Option String
  createdAt : Nat
deriving DecidableEq

/-- Row of the wallet_transactions table. -/
structure WalletTransaction where
  userId : Nat
  type : TxType
  amount : Int
  relatedOrderId : Option Nat
deriving DecidableEq

/-- Row of the pending_earnings table. -/
structure PendingEarning where
  id : Nat
  sellerId : Nat
  orderId : Nat
  amount : Int
  status : EarningStatus
  releaseAt : Nat
  releasedAt : Option Nat
deriving DecidableEq

/-- Row of the referrals table.  `commissionRate` is the stored percentage in
hundredths of a percent (decimal(5,2)); `none` models an unset or unparsable
stored value (parseFloat yielding NaN in the source). -/
structure Referral where
  id : Nat
  referrerId : Nat
  referredId : Nat
  commissionRate : Option Int
  totalEarned : Int
  isActive : Bool
deriving DecidableEq

/-- Row of the user_referral_codes table (the fields the engine touches). -/
structure ReferralCode where
  userId : Nat
  totalEarnings : Int
deriving DecidableEq

/-- The persistent store: the tables the engine reads and writes, plus the
id supply for rows the handlers insert. -/
structure Store where
  users : List User
  products : List Product
  items : List ProductItem
  orders : List Order
  txs : List WalletTransaction
  earnings : List PendingEarning
  referrals : List Referral
  refCodes : List ReferralCode
  nextOrderId : Nat
  nextEarningId : Nat
deriving DecidableEq

/-- 30 minutes in milliseconds (reservation hold and pending-order cutoff). -/
def thirtyMinutesMs : Nat := 30 * 60 * 1000

/-- 3 days in milliseconds (pending-earning hold window; the source adds
three calendar days via setDate, modelled as 72 hours). -/
def threeDaysMs : Nat := 3 * 24 * 60 * 60 * 1000

/-- Round-half-up division for money: roundHalfUpDiv a b is a/b rounded to
the nearest integer, halves upward (b positive). -/
def roundHalfUpDiv (a b : Int) : Int := (2 * a + b).fdiv (2 * b)

/-- Seller net amount: `(parseFloat(totalPrice) * (1 - 0.05)).toFixed(2)` in
routes.ts, i.e. 95 percent of the price rounded half-up to whole cents. -/
def sellerNetAmount (price : Int) : Int := roundHalfUpDiv (95 * price) 100

/-- Platform fee: `(parseFloat(totalPrice) * 0.05).toFixed(2)` in routes.ts. -/
def platformFee (price : Int) : Int := roundHalfUpDiv (5 * price) 100

/-- Referral commission: `(parseFloat(price) * rate / 100).toFixed(2)` where
`rateH` is the percentage in hundredths of a percent (e.g. 500 = 5.00%). -/
def referralCommissionAmount (price rateH : Int) : Int :=
  roundHalfUpDiv (price * rateH) 10000

/-- Effective referral rate in hundredths of a percent: the stored value, or
5.00% when unset or invalid (`isNaN(rate) ? 0.05 : rate / 100` with the
`|| "5.00"` fallback in routes.ts). -/
def effectiveRateH (stored : Option Int) : Int :=
  match stored with
  | some v => v
  | none => 500

/-- True when a reservation expiry timestamp is strictly in the past
(`lt(productItems.reservedUntil, new Date())`; a NULL expiry compares false). -/
def isExpired (reservedUntil : Option Nat) (now : Nat) : Bool :=
  match reservedUntil with
  | some t => decide (t < now)
  | none => false

/-- DatabaseStorage.getUser: select the user row by id. -/
def getUser (s : Store) (uid : Nat) : Option User :=
  s.users.find? (fun u => decide (u.id = uid))

/-- DatabaseStorage.updateUserBalance: set walletBalance of the user row to
the given value (a plain column write, no ledger entry). -/
def updateUserBalance (s : Store) (uid : Nat) (amount : Int) : Store :=
  { s with users := s.users.map (fun u =>
      if u.id = uid then { u with walletBalance := amount } else u) }

/-- DatabaseStorage.creditUserWallet: atomic SQL increment of walletBalance;
returns without writing when the amount is not positive. -/
def creditUserWallet (s : Store) (uid : Nat) (amount : Int) : Store :=
  if amount ≤ 0 then s
  else
    { s with users := s.users.map (fun u =>
        if u.id = uid then { u with walletBalance := u.walletBalance + amount } else u) }

/-- PATCH /api/admin/users/:id in routes.ts, restricted to the walletBalance
field: when the request body carries walletBalance, storage.updateUser writes
the column directly; no wallet transaction is appended on this path. -/
def adminPatchUser (s : Store) (uid : Nat) (walletBalance : Option Int) : Store :=
  match walletBalance with
  | some w => updateUserBalance s uid w
  | none => s

/-- DatabaseStorage.getProductWithSeller: products inner-joined with users on
sellerId, filtered by product id. -/
def getProductWithSeller (s : Store) (pid : Nat) : Option Product :=
  match s.products.find? (fun p => decide (p.id = pid)) with
  | none => none
  | some p =>
    if s.users.any (fun u => decide (u.id = p.sellerId)) then some p else none

/-- DatabaseStorage.updateProductStock: set the stock column. -/
def updateProductStock (s : Store) (pid : Nat) (stock : Int) : Store :=
  { s with products := s.products.map (fun p =>
      if p.id = pid then { p with stock := stock } else p) }

/-- DatabaseStorage.getAvailableProductItem: first item of the product whose
status column is available (select ... limit 1; no expiry sweep here). -/
def getAvailableProductItem (s : Store) (pid : Nat) : Option ProductItem :=
  s.items.find? (fun it => decide (it.productId = pid ∧ it.status = ItemStatus.available))

/-- DatabaseStorage.reserveProductItem: set the item reserved with the given
expiry. -/
def reserveProductItem (s : Store) (iid : Nat) (reservedUntil : Nat) : Store :=
  { s with items := s.items.map (fun it =>
      if it.id = iid then { it with status := ItemStatus.reserved, reservedUntil := some reservedUntil } else it) }

/-- DatabaseStorage.updateProductItemStatus: set the status column; the
reservedUntil column is cleared for sold and available and left untouched
otherwise. -/
def updateProductItemStatus (s : Store) (iid : Nat) (st : ItemStatus) : Store :=
  { s with items := s.items.map (fun it =>
      if it.id = iid then
        { it with
          status := st,
          reservedUntil :=
            if st = ItemStatus.sold ∨ st = ItemStatus.available then none else it.reservedUntil }
      else it) }

/-- First half of DatabaseStorage.getAvailableProductItems: flip every
reserved item of the product whose expiry has passed back to available,
clearing the expiry. -/
def sweepExpiredForProduct (s : Store) (pid : Nat) (now : Nat) : Store :=
  { s with items := s.items.map (fun it =>
      if decide (it.productId = pid ∧ it.status = ItemStatus.reserved) && isExpired it.reservedUntil now then
        { it with status := ItemStatus.available, reservedUntil := none }
      else it) }

/-- Items of the product whose status column is available, in store order. -/
def availableItemsOf (s : Store) (pid : Nat) : List ProductItem :=
  s.items.filter (fun it => decide (it.productId = pid ∧ it.status = ItemStatus.available))

/-- DatabaseStorage.getAvailableProductItems: sweep expired reservations of
the product back to available, then return up to count available items.  The
sweep is a committed write, so the updated store is returned as well. -/
def getAvailableProductItems (s : Store) (pid : Nat) (count : Nat) (now : Nat) :
    Store × List ProductItem :=
  let s1 := sweepExpiredForProduct s pid now
  (s1, (availableItemsOf s1 pid).take count)

/-- The loop in the wallet branch marking every fetched item sold, one
updateProductItemStatus call per item. -/
def markItemsSold (s : Store) (picks : List ProductItem) : Store :=
  picks.foldl (fun acc it => updateProductItemStatus acc it.id ItemStatus.sold) s

/-- DatabaseStorage.createOrder: insert a new order row (the generated id is
the next free id; orderCode generation is not modelled). -/
def createOrder (s : Store) (buyerId sellerId productId : Nat)
    (productItemId : Option Nat) (quantity : Nat) (price : Int)
    (pm : PaymentMethod) (st : OrderStatus) (now : Nat) : Store × Order :=
  let o : Order :=
    { id := s.nextOrderId, buyerId := buyerId, sellerId := sellerId,
      productId := productId, productItemId := productItemId,
      quantity := quantity, price := price, paymentMethod := pm,
      status := st, deliveredContent := none, createdAt := now }
  ({ s with orders := s.orders ++ [o], nextOrderId := s.nextOrderId + 1 }, o)

/-- DatabaseStorage.updateOrderStatus: set the status column. -/
def updateOrderStatus (s : Store) (oid : Nat) (st : OrderStatus) : Store :=
  { s with orders := s.orders.map (fun o =>
      if o.id = oid then { o with status := st } else o) }

/-- DatabaseStorage.updateOrderDeliveredContent: set the deliveredContent
column. -/
def updateOrderDeliveredContent (s : Store) (oid : Nat) (content : String) : Store :=
  { s with orders := s.orders.map (fun o =>
      if o.id = oid then { o with deliveredContent := some content } else o) }

/-- DatabaseStorage.getOrderWithDetails: the order inner-joined with its
product and its buyer (undefined when any of the three rows is missing). -/
def getOrderWithDetails (s : Store) (oid : Nat) : Option (Order × Product) :=
  match s.orders.find? (fun o => decide (o.id = oid)) with
  | none => none
  | some o =>
    match s.products.find? (fun p => decide (p.id = o.productId)) with
    | none => none
    | some p =>
      if s.users.any (fun u => decide (u.id = o.buyerId)) then some (o, p) else none

/-- DatabaseStorage.createWalletTransaction: append a ledger row. -/
def createWalletTransaction (s : Store) (uid : Nat) (ty : TxType) (amount : Int)
    (relatedOrderId : Option Nat) : Store :=
  { s with txs := s.txs ++ [{ userId := uid, type := ty, amount := amount,
                              relatedOrderId := relatedOrderId }] }

/-- DatabaseStorage.createPendingEarning: insert a pending-earning row (both
call sites pass status pending and no releasedAt). -/
def createPendingEarning (s : Store) (sellerId orderId : Nat) (amount : Int)
    (releaseAt : Nat) : Store :=
  { s with
    earnings := s.earnings ++ [{ id := s.nextEarningId, sellerId := sellerId,
                                 orderId := orderId, amount := amount,
                                 status := EarningStatus.pending,
                                 releaseAt := releaseAt, releasedAt := none }],
    nextEarningId := s.nextEarningId + 1 }

/-- DatabaseStorage.releasePendingEarning: unconditionally set the row to
released with releasedAt stamped (no status guard in the storage layer). -/
def releasePendingEarningOp (s : Store) (eid : Nat) (now : Nat) : Store :=
  { s with earnings := s.earnings.map (fun e =>
      if e.id = eid then { e with status := EarningStatus.released, releasedAt := some now } else e) }

/-- DatabaseStorage.getReferralByReferredId: first referral row whose
referredId matches. -/
def getReferralByReferredId (s : Store) (referredId : Nat) : Option Referral :=
  s.referrals.find? (fun r => decide (r.referredId = referredId))

/-- DatabaseStorage.updateReferralEarnings: SQL increment of totalEarned on
the referral row. -/
def updateReferralEarnings (s : Store) (rid : Nat) (amount : Int) : Store :=
  { s with referrals := s.referrals.map (fun r =>
      if r.id = rid then { r with totalEarned := r.totalEarned + amount } else r) }

/-- DatabaseStorage.updateReferrerTotalEarnings: SQL increment of
totalEarnings on the user_referral_codes row of the referrer. -/
def updateReferrerTotalEarnings (s : Store) (uid : Nat) (amount : Int) : Store :=
  { s with refCodes := s.refCodes.map (fun c =>
      if c.userId = uid then { c with totalEarnings := c.totalEarnings + amount } else c) }

/-- Error responses of POST /api/orders (the distinct 4xx/5xx exits of the
route; storageFailure is the catch-all 500 for a thrown storage call). -/
inductive OrderError
  | productNotFound
  | notEnoughStock
  | insufficientBalance
  | insufficientInventory (availableCount : Nat)
  | storageFailure
deriving DecidableEq

/-- Outcome of POST /api/orders: the created order id, or an error response. -/
inductive PostOrderResult
  | ok (orderId : Nat)
  | err (e : OrderError)
deriving DecidableEq

/-- Fault schedule test: fault index k of the wallet branch fires when the
schedule names exactly that index. -/
def faultHit (failAt : Option Nat) (k : Nat) : Bool :=
  match failAt with
  | some j => decide (j = k)
  | none => false

/-- The `items.map(item => item.content).join(newline)` expression building
the delivered payload. -/
def joinContents : List String → String
  | [] => ""
  | [a] => a
  | a :: b :: rest => a ++ "\n" ++ joinContents (b :: rest)

/-- The referral-commission block shared verbatim by the wallet branch of
POST /api/orders and by POST /api/admin/orders/:id/confirm: if the buyer has
a referral row that is active, compute the commission from the order price
and the stored rate (default 5 percent when unset or invalid), and when it
is positive and the referrer exists, credit the referrer wallet, append a
credit wallet transaction referencing the order, and increment both the
referral totalEarned and the referrer code totalEarnings. -/
def runReferralFlow (s : Store) (buyerId orderId : Nat) (price : Int) : Store :=
  match getReferralByReferredId s buyerId with
  | none => s
  | some r =>
    if r.isActive then
      let commission := referralCommissionAmount price (effectiveRateH r.commissionRate)
      if 0 < commission then
        match getUser s r.referrerId with
        | none => s
        | some _ =>
          let s1 := creditUserWallet s r.referrerId commission
          let s2 := createWalletTransaction s1 r.referrerId TxType.credit commission (some orderId)
          let s3 := updateReferralEarnings s2 r.id commission
          updateReferrerTotalEarnings s3 r.referrerId commission
      else s
    else s

/-- Tail of the wallet branch after the delivered items are settled: debit
the buyer, append the debit transaction, create the paid order, attach the
delivered content when non-empty, decrement the listing stock for account
products, create the pending earning, and run the referral block.  Fault
indices 2..7 model the respective storage call throwing, in which case the
route answers 500 with every earlier write already committed. -/
def walletFinish (s : Store) (userId : Nat) (product : Product) (productId quantity : Nat)
    (totalPrice buyerBalance : Int) (delivered : String) (soldItemIds : List Nat)
    (now : Nat) (failAt : Option Nat) : Store × PostOrderResult :=
  if faultHit failAt 2 then (s, .err .storageFailure) else
  let s4 := updateUserBalance s userId (buyerBalance - totalPrice)
  if faultHit failAt 3 then (s4, .err .storageFailure) else
  let s5 := createWalletTransaction s4 userId TxType.debit totalPrice none
  if faultHit failAt 4 then (s5, .err .storageFailure) else
  let p6 := createOrder s5 userId product.sellerId productId soldItemIds.head?
              quantity totalPrice PaymentMethod.wallet OrderStatus.paid now
  if faultHit failAt 5 then (p6.1, .err .storageFailure) else
  let s7 := if delivered ≠ "" then updateOrderDeliveredContent p6.1 p6.2.id delivered else p6.1
  if faultHit failAt 6 then (s7, .err .storageFailure) else
  let s8 := if product.category = Category.account then
              updateProductStock s7 productId (product.stock - quantity) else s7
  if faultHit failAt 7 then (s8, .err .storageFailure) else
  let s9 := createPendingEarning s8 product.sellerId p6.2.id (sellerNetAmount totalPrice)
              (now + threeDaysMs)
  (runReferralFlow s9 userId p6.2.id totalPrice, .ok p6.2.id)

/-- Wallet branch after the balance check passed: for account products fetch
the available items (sweeping expired reservations), fail when fewer than
requested, mark them sold and join their contents; then run the shared tail.
Fault index 1 models the first updateProductItemStatus call throwing. -/
def walletFulfill (s : Store) (userId : Nat) (product : Product) (productId quantity : Nat)
    (totalPrice buyerBalance : Int) (now : Nat) (failAt : Option Nat) :
    Store × PostOrderResult :=
  if product.category = Category.account then
    let p := getAvailableProductItems s productId quantity now
    if p.2.length < quantity then (p.1, .err (.insufficientInventory p.2.length))
    else
      if faultHit failAt 1 then (p.1, .err .storageFailure) else
      let s3 := markItemsSold p.1 p.2
      walletFinish s3 userId product productId quantity totalPrice buyerBalance
        (joinContents (p.2.map (fun it => it.content))) (p.2.map (fun it => it.id)) now failAt
  else
    walletFinish s userId product productId quantity totalPrice buyerBalance "" [] now failAt

/-- POST /api/orders: load the product with its seller, check stock for
account products, best-effort reserve one available unit for 30 minutes,
then either run the wallet purchase (balance check, allocation, debit,
delivery, commission split, referral) or create a pending_payment QR order.
The failAt schedule injects a storage fault in the wallet branch; `none`
is the fault-free execution. -/
def postOrders (s : Store) (userId productId quantity : Nat)
    (paymentMethod : PaymentMethod) (now : Nat) (failAt : Option Nat) :
    Store × PostOrderResult :=
  match getProductWithSeller s productId with
  | none => (s, .err .productNotFound)
  | some product =>
    if product.category = Category.account ∧ product.stock < (quantity : Int) then
      (s, .err .notEnoughStock)
    else
      let p1 : Store × Option Nat :=
        if product.category = Category.account then
          match getAvailableProductItem s productId with
          | some item => (reserveProductItem s item.id (now + thirtyMinutesMs), some item.id)
          | none => (s, none)
        else (s, none)
      let totalPrice : Int := product.price * quantity
      match paymentMethod with
      | PaymentMethod.wallet =>
        match getUser p1.1 userId with
        | none => (p1.1, .err .insufficientBalance)
        | some buyer =>
          if buyer.walletBalance < totalPrice then (p1.1, .err .insufficientBalance)
          else
            walletFulfill p1.1 userId product productId quantity totalPrice
              buyer.walletBalance now failAt
      | PaymentMethod.qr =>
        let p2 := createOrder p1.1 userId product.sellerId productId p1.2 quantity
                    totalPrice PaymentMethod.qr OrderStatus.pendingPayment now
        (p2.1, .ok p2.2.id)

/-- POST /api/admin/orders/:id/confirm: set the order paid, mark the bound
item sold and deliver its content when present, decrement stock for account
products, create the pending earning (95 percent, 3-day hold) and run the
referral block.  Returns false for the 404 path. -/
def adminConfirmOrder (s : Store) (oid : Nat) (now : Nat) : Store × Bool :=
  match getOrderWithDetails s oid with
  | none => (s, false)
  | some op =>
    let s1 := updateOrderStatus s oid OrderStatus.paid
    let s2 :=
      match op.1.productItemId with
      | some iid =>
        match s.items.find? (fun it => decide (it.id = iid)) with
        | some item =>
          updateOrderDeliveredContent (updateProductItemStatus s1 iid ItemStatus.sold) oid item.content
        | none => s1
      | none => s1
    let s3 := if op.2.category = Category.account then
                updateProductStock s2 op.1.productId (op.2.stock - op.1.quantity) else s2
    let s4 := createPendingEarning s3 op.1.sellerId op.1.id (sellerNetAmount op.1.price)
                (now + threeDaysMs)
    (runReferralFlow s4 op.1.buyerId op.1.id op.1.price, true)

/-- POST /api/admin/orders/:id/cancel: set the order cancelled and, when an
item is bound, set it available unconditionally (no check of the order state
or of the item status). -/
def adminCancelOrder (s : Store) (oid : Nat) : Store × Bool :=
  match getOrderWithDetails s oid with
  | none => (s, false)
  | some op =>
    let s1 := updateOrderStatus s oid OrderStatus.cancelled
    match op.1.productItemId with
    | some iid => (updateProductItemStatus s1 iid ItemStatus.available, true)
    | none => (s1, true)

/-- POST /api/admin/pending-earnings/:id/release: 404 unless the earning
exists and is still pending; otherwise mark it released, and when the seller
row exists credit the held amount to the seller balance and append a credit
wallet transaction referencing the order. -/
def adminReleasePendingEarning (s : Store) (eid : Nat) (now : Nat) : Store × Bool :=
  match s.earnings.find? (fun e => decide (e.id = eid)) with
  | none => (s, false)
  | some e =>
    if e.status ≠ EarningStatus.pending then (s, false)
    else
      let s1 := releasePendingEarningOp s eid now
      match getUser s1 e.sellerId with
      | none => (s1, true)
      | some seller =>
        let s2 := updateUserBalance s1 e.sellerId (seller.walletBalance + e.amount)
        (createWalletTransaction s2 e.sellerId TxType.credit e.amount (some e.orderId), true)

/-- Body of the per-record try block of the auto-release job: mark the row
released, then credit the seller and append the credit transaction when the
seller row exists. -/
def releaseOneEarning (s : Store) (e : PendingEarning) (now : Nat) : Store :=
  let s1 := releasePendingEarningOp s e.id now
  match getUser s1 e.sellerId with
  | none => s1
  | some seller =>
    let s2 := updateUserBalance s1 e.sellerId (seller.walletBalance + e.amount)
    createWalletTransaction s2 e.sellerId TxType.credit e.amount (some e.orderId)

/-- The releasePendingEarnings job of routes.ts: select every pending
earning due by now, then release each in turn. -/
def releaseEarningsJob (s : Store) (now : Nat) : Store :=
  (s.earnings.filter (fun e => decide (e.status = EarningStatus.pending ∧ e.releaseAt ≤ now))).foldl
    (fun acc e => releaseOneEarning acc e now) s

/-- DatabaseStorage.cleanupExpiredReservations: one update flipping every
reserved item with expiry in the past back to available, clearing the
expiry; returns the number of flipped rows. -/
def cleanupExpiredReservations (s : Store) (now : Nat) : Store × Nat :=
  (( { s with items := s.items.map (fun it =>
        if decide (it.status = ItemStatus.reserved) && isExpired it.reservedUntil now then
          { it with status := ItemStatus.available, reservedUntil := none }
        else it) } : Store),
   (s.items.filter (fun it =>
      decide (it.status = ItemStatus.reserved) && isExpired it.reservedUntil now)).length)

/-- Per-order body of the cancelExpiredPendingOrders loop: release the bound
item when present (set available, clear expiry) and set the order cancelled. -/
def cancelOneExpired (s : Store) (o : Order) : Store :=
  let s1 : Store :=
    match o.productItemId with
    | some iid =>
      { s with items := s.items.map (fun it =>
          if it.id = iid then { it with status := ItemStatus.available, reservedUntil := none } else it) }
    | none => s
  { s1 with orders := s1.orders.map (fun o2 =>
      if o2.id = o.id then { o2 with status := OrderStatus.cancelled } else o2) }

/-- DatabaseStorage.cancelExpiredPendingOrders: select the orders still
pending_payment created more than 30 minutes ago, cancel each and release
its bound item; returns the number of selected orders. -/
def cancelExpiredPendingOrders (s : Store) (now : Nat) : Store × Nat :=
  let expiredOrders := s.orders.filter (fun o =>
    decide (o.status = OrderStatus.pendingPayment ∧ o.createdAt < now - thirtyMinutesMs))
  (expiredOrders.foldl (fun acc o => cancelOneExpired acc o) s, expiredOrders.length)

/-- Signed ledger value of one wallet transaction for an account. -/
def txSigned (uid : Nat) (t : WalletTransaction) : Int :=
  if t.userId = uid then
    match t.type with
    | TxType.credit => t.amount
    | TxType.debit => -t.amount
  else 0

/-- Signed sum of the ledger entries of an account. -/
def ledgerSum (uid : Nat) (txs : List WalletTransaction) : Int :=
  (txs.map (txSigned uid)).sum

/-- The central ledger invariant: every denormalized walletBalance equals
the signed sum of the wallet transactions of that account. -/
def balancesMatchLedger (s : Store) : Prop :=
  ∀ u ∈ s.users, u.walletBalance = ledgerSum u.id s.txs

instance (s : Store) : Decidable (balancesMatchLedger s) := by
  unfold balancesMatchLedger
  exact List.decidableBAll _ s.users

/-- Item row lookup by id, for stating theorems. -/
def itemById (s : Store) (iid : Nat) : Option ProductItem :=
  s.items.find? (fun it => decide (it.id = iid))

/-- Order row lookup by id, for stating theorems. -/
def orderById (s : Store) (oid : Nat) : Option Order :=
  s.orders.find? (fun o => decide (o.id = oid))

/-- Earning row lookup by id, for stating theorems. -/
def earningById (s : Store) (eid : Nat) : Option PendingEarning :=
  s.earnings.find? (fun e => decide (e.id = eid))

/-- Referral row lookup by id, for stating theorems. -/
def referralById (s : Store) (rid : Nat) : Option Referral :=
  s.referrals.find? (fun r => decide (r.id = rid))

/-- A unit is logically available at a time: marked available, or still
marked reserved with an expiry in the past. -/
def logicallyAvailable (it : ProductItem) (now : Nat) : Prop :=
  it.status = ItemStatus.available ∨
    (it.status = ItemStatus.reserved ∧ isExpired it.reservedUntil now = true)

instance (it : ProductItem) (now : Nat) : Decidable (logicallyAvailable it now) := by
  unfold logicallyAvailable
  infer_instance

/-- Pointwise form of the sold-marking loop: set a unit sold when its id is
in the given list (used to state what markItemsSold does to the item table). -/
def applySoldIds (ids : List Nat) (it : ProductItem) : ProductItem :=
  if it.id ∈ ids then { it with status := ItemStatus.sold, reservedUntil := none } else it

/-! Concrete stores used to evaluate the handlers at specific inputs. -/

/-- Buyer account with funds. -/
def buyer1 : User := { id := 1, walletBalance := 20000 }

/-- Seller account. -/
def seller2 : User := { id := 2, walletBalance := 0 }

/-- Referrer account. -/
def referrer3 : User := { id := 3, walletBalance := 0 }

/-- Account-category listing of seller 2, price 100.00, stock 2. -/
def listing10 : Product :=
  { id := 10, sellerId := 2, category := Category.account, price := 10000, stock := 2 }

/-- Account-category listing of seller 2 priced 10.99 (a price whose
5 percent split does not land on whole cents). -/
def listing11 : Product :=
  { id := 11, sellerId := 2, category := Category.account, price := 1099, stock := 2 }

/-- Available unit of listing 10. -/
def unit100 : ProductItem :=
  { id := 100, productId := 10, content := "acc1", status := ItemStatus.available, reservedUntil := none }

/-- Second available unit of listing 10. -/
def unit101 : ProductItem :=
  { id := 101, productId := 10, content := "acc2", status := ItemStatus.available, reservedUntil := none }

/-- Third available unit of listing 10. -/
def unit102 : ProductItem :=
  { id := 102, productId := 10, content := "acc3", status := ItemStatus.available, reservedUntil := none }

/-- Available unit of listing 11. -/
def unit110 : ProductItem :=
  { id := 110, productId := 11, content := "acc4", status := ItemStatus.available, reservedUntil := none }

/-- Second available unit of listing 11. -/
def unit111 : ProductItem :=
  { id := 111, productId := 11, content := "acc5", status := ItemStatus.available, reservedUntil := none }

/-- Store with a funded buyer, a seller and listing 10 with three units. -/
def storeBase : Store :=
  { users := [buyer1, seller2], products := [listing10], items := [unit100, unit101, unit102],
    orders := [], txs := [], earnings := [], referrals := [], refCodes := [],
    nextOrderId := 50, nextEarningId := 70 }

/-- Store for the odd-price purchase: listing 11 with two units, and buyer 1
referred by user 3 through an active 5.00 percent referral. -/
def storeOddPrice : Store :=
  { users := [buyer1, seller2, referrer3], products := [listing11],
    items := [unit110, unit111], orders := [], txs := [], earnings := [],
    referrals := [{ id := 7, referrerId := 3, referredId := 1,
                    commissionRate := some 500, totalEarned := 0, isActive := true }],
    refCodes := [{ userId := 3, totalEarnings := 0 }],
    nextOrderId := 50, nextEarningId := 70 }

/-- Store with a single account whose balance matches its (empty) ledger. -/
def storeLedger : Store :=
  { users := [{ id := 0, walletBalance := 0 }], products := [], items := [],
    orders := [], txs := [], earnings := [], referrals := [], refCodes := [],
    nextOrderId := 0, nextEarningId := 0 }

/-- Store holding a paid wallet order whose bound unit is sold. -/
def storePaidOrder : Store :=
  { users := [buyer1, seller2], products := [listing10],
    items := [{ id := 100, productId := 10, content := "acc1",
                status := ItemStatus.sold, reservedUntil := none }],
    orders := [{ id := 5, buyerId := 1, sellerId := 2, productId := 10,
                 productItemId := some 100, quantity := 1, price := 10000,
                 paymentMethod := PaymentMethod.wallet, status := OrderStatus.paid,
                 deliveredContent := some "acc1", createdAt := 0 }],
    txs := [], earnings := [], referrals := [], refCodes := [],
    nextOrderId := 6, nextEarningId := 70 }

/-- Store holding one unit of listing 10 whose reservation expired at time 5. -/
def storeExpiredReservation : Store :=
  { users := [buyer1, seller2], products := [listing10],
    items := [{ id := 100, productId := 10, content := "acc1",
                status := ItemStatus.reserved, reservedUntil := some 5 }],
    orders := [], txs := [], earnings := [], referrals := [], refCodes := [],
    nextOrderId := 50, nextEarningId := 70 }

/-- Store like storeBase but with exactly two available units of listing 10. -/
def storeExactStock : Store :=
  { users := [buyer1, seller2], products := [listing10], items := [unit100, unit101],
    orders := [], txs := [], earnings := [], referrals := [], refCodes := [],
    nextOrderId := 50, nextEarningId := 70 }

/-- Store holding one due pending earning of seller 2. -/
def storePendingEarning : Store :=
  { users := [buyer1, seller2], products := [], items := [],
    orders := [], txs := [],
    earnings := [{ id := 70, sellerId := 2, orderId := 5, amount := 9500,
                   status := EarningStatus.pending, releaseAt := 100,
                   releasedAt := none }],
    referrals := [], refCodes := [], nextOrderId := 6, nextEarningId := 71 }

/-- Store holding a stale pending_payment QR order bound to a reserved unit. -/
def storeStaleOrder : Store :=
  { users := [buyer1, seller2], products := [listing10],
    items := [{ id := 100, productId := 10, content := "acc1",
                status := ItemStatus.reserved, reservedUntil := some 100 }],
    orders := [{ id := 5, buyerId := 1, sellerId := 2, productId := 10,
                 productItemId := some 100, quantity := 1, price := 10000,
                 paymentMethod := PaymentMethod.qr, status := OrderStatus.pendingPayment,
                 deliveredContent := none, createdAt := 0 }],
    txs := [], earnings := [], referrals := [], refCodes := [],
    nextOrderId := 6, nextEarningId := 70 }

/-! Theorems.  First a collection of helper lemmas about the store
operations, then one theorem per claim. -/

theorem users_reserveProductItem (s : Store) (iid T : Nat) :
    (reserveProductItem s iid T).users = s.users := rfl

theorem users_sweepExpiredForProduct (s : Store) (pid now : Nat) :
    (sweepExpiredForProduct s pid now).users = s.users := rfl

theorem users_updateProductItemStatus (s : Store) (iid : Nat) (st : ItemStatus) :
    (updateProductItemStatus s iid st).users = s.users := rfl

theorem users_markItemsSold (s : Store) (picks : List ProductItem) :
    (markItemsSold s picks).users = s.users := by
  induction picks generalizing s with
  | nil => rfl
  | cons p rest ih => simpa [markItemsSold] using ih (updateProductItemStatus s p.id ItemStatus.sold)

theorem getUser_reserveProductItem (s : Store) (iid T uid : Nat) :
    getUser (reserveProductItem s iid T) uid = getUser s uid := rfl

theorem getUser_sweepExpiredForProduct (s : Store) (pid now uid : Nat) :
    getUser (sweepExpiredForProduct s pid now) uid = getUser s uid := rfl

theorem getUser_markItemsSold (s : Store) (picks : List ProductItem) (uid : Nat) :
    getUser (markItemsSold s picks) uid = getUser s uid := by
  unfold getUser
  rw [users_markItemsSold]

/-- Updating the balance of an account rewrites the row every lookup by
that id returns, leaving other rows in place. -/
theorem find?_map_balance (users : List User) (uid : Nat) (g : User → Int) :
    (users.map (fun u => if u.id = uid then { u with walletBalance := g u } else u)).find?
        (fun u => decide (u.id = uid))
      = (users.find? (fun u => decide (u.id = uid))).map
          (fun u => { u with walletBalance := g u }) := by
  induction users with
  | nil => rfl
  | cons u rest ih =>
    simp only [List.map_cons]
    by_cases hu : u.id = uid
    · rw [if_pos hu]
      have e1 : decide (({ u with walletBalance := g u } : User).id = uid) = true := by
        rw [decide_eq_true_eq]; exact hu
      have e0 : decide (u.id = uid) = true := by rw [decide_eq_true_eq]; exact hu
      simp only [List.find?_cons, e1, e0]
      rfl
    · rw [if_neg hu]
      have e0 : decide (u.id = uid) = false := by rw [decide_eq_false_iff_not]; exact hu
      simp only [List.find?_cons, e0, ih]

theorem getUser_updateUserBalance (s : Store) (uid : Nat) (v : Int) :
    getUser (updateUserBalance s uid v) uid
      = (getUser s uid).map (fun u => { u with walletBalance := v }) := by
  unfold getUser updateUserBalance
  exact find?_map_balance s.users uid (fun _ => v)

theorem getUser_creditUserWallet (s : Store) (uid : Nat) (a : Int) (ha : 0 < a) :
    getUser (creditUserWallet s uid a) uid
      = (getUser s uid).map (fun u => { u with walletBalance := u.walletBalance + a }) := by
  unfold getUser creditUserWallet
  rw [if_neg (by omega)]
  exact find?_map_balance s.users uid (fun u => u.walletBalance + a)

/-- Lookups for a different account see through a balance rewrite. -/
theorem find?_map_balance_ne (users : List User) (uid w : Nat) (g : User → Int)
    (h : w ≠ uid) :
    (users.map (fun u => if u.id = uid then { u with walletBalance := g u } else u)).find?
        (fun u => decide (u.id = w))
      = users.find? (fun u => decide (u.id = w)) := by
  induction users with
  | nil => rfl
  | cons u rest ih =>
    simp only [List.map_cons]
    by_cases hu : u.id = uid
    · rw [if_pos hu]
      have e1 : decide (({ u with walletBalance := g u } : User).id = w) = false := by
        rw [decide_eq_false_iff_not]; show ¬ u.id = w; omega
      have e0 : decide (u.id = w) = false := by rw [decide_eq_false_iff_not]; omega
      simp only [List.find?_cons, e1, e0, ih]
    · rw [if_neg hu]
      by_cases hw : u.id = w
      · have e : decide (u.id = w) = true := by rw [decide_eq_true_eq]; exact hw
        simp only [List.find?_cons, e]
      · have e : decide (u.id = w) = false := by rw [decide_eq_false_iff_not]; exact hw
        simp only [List.find?_cons, e, ih]

theorem getUser_updateUserBalance_ne (s : Store) (uid w : Nat) (v : Int) (h : w ≠ uid) :
    getUser (updateUserBalance s uid v) w = getUser s w := by
  unfold getUser updateUserBalance
  exact find?_map_balance_ne s.users uid w (fun _ => v) h

theorem getUser_creditUserWallet_ne (s : Store) (uid w : Nat) (a : Int) (h : w ≠ uid) :
    getUser (creditUserWallet s uid a) w = getUser s w := by
  unfold getUser creditUserWallet
  by_cases ha : a ≤ 0
  · rw [if_pos ha]
  · rw [if_neg ha]
    exact find?_map_balance_ne s.users uid w (fun u => u.walletBalance + a) h

theorem faultHit_none (k : Nat) : faultHit none k = false := rfl

theorem items_creditUserWallet (s : Store) (uid : Nat) (a : Int) :
    (creditUserWallet s uid a).items = s.items := by
  unfold creditUserWallet; split <;> rfl

theorem orders_creditUserWallet (s : Store) (uid : Nat) (a : Int) :
    (creditUserWallet s uid a).orders = s.orders := by
  unfold creditUserWallet; split <;> rfl

theorem products_creditUserWallet (s : Store) (uid : Nat) (a : Int) :
    (creditUserWallet s uid a).products = s.products := by
  unfold creditUserWallet; split <;> rfl

theorem earnings_creditUserWallet (s : Store) (uid : Nat) (a : Int) :
    (creditUserWallet s uid a).earnings = s.earnings := by
  unfold creditUserWallet; split <;> rfl

theorem txs_creditUserWallet (s : Store) (uid : Nat) (a : Int) :
    (creditUserWallet s uid a).txs = s.txs := by
  unfold creditUserWallet; split <;> rfl

theorem runReferralFlow_frame (s : Store) (b o : Nat) (p : Int) :
    (runReferralFlow s b o p).items = s.items ∧
    (runReferralFlow s b o p).orders = s.orders ∧
    (runReferralFlow s b o p).products = s.products ∧
    (runReferralFlow s b o p).earnings = s.earnings ∧
    (runReferralFlow s b o p).nextOrderId = s.nextOrderId ∧
    (runReferralFlow s b o p).nextEarningId = s.nextEarningId := by
  unfold runReferralFlow
  split
  · exact ⟨rfl, rfl, rfl, rfl, rfl, rfl⟩
  · split
    · dsimp only
      split
      · split
        · exact ⟨rfl, rfl, rfl, rfl, rfl, rfl⟩
        · refine ⟨?_, ?_, ?_, ?_, ?_, ?_⟩ <;>
            simp only [updateReferrerTotalEarnings, updateReferralEarnings,
              createWalletTransaction, items_creditUserWallet, orders_creditUserWallet,
              products_creditUserWallet, earnings_creditUserWallet] <;>
            (first
              | rfl
              | (unfold creditUserWallet; split <;> rfl))
      · exact ⟨rfl, rfl, rfl, rfl, rfl, rfl⟩
    · exact ⟨rfl, rfl, rfl, rfl, rfl, rfl⟩

theorem runReferralFlow_getUser_frame (s : Store) (b o : Nat) (p : Int) (w : Nat)
    (h : ∀ r ∈ s.referrals, r.referredId = b → r.referrerId ≠ w) :
    getUser (runReferralFlow s b o p) w = getUser s w := by
  unfold runReferralFlow
  split
  · rfl
  next r heq =>
    unfold getReferralByReferredId at heq
    have hmem : r ∈ s.referrals := List.mem_of_find?_eq_some heq
    have hpred := List.find?_some heq
    simp only [decide_eq_true_eq] at hpred
    have hne : w ≠ r.referrerId := fun e => h r hmem hpred (e ▸ rfl)
    split
    · dsimp only
      split
      · split
        · rfl
        · exact getUser_creditUserWallet_ne s r.referrerId w
            (referralCommissionAmount p (effectiveRateH r.commissionRate)) hne
      · rfl
    · rfl

theorem runReferralFlow_countP_txs (s : Store) (b o : Nat) (p : Int)
    (q : WalletTransaction → Bool)
    (hq : ∀ t : WalletTransaction, t.type = TxType.credit → q t = false) :
    ((runReferralFlow s b o p).txs.countP q) = s.txs.countP q := by
  unfold runReferralFlow
  split
  · rfl
  next r heq =>
    split
    · dsimp only
      split
      · split
        · rfl
        · show ((createWalletTransaction (creditUserWallet s r.referrerId
                (referralCommissionAmount p (effectiveRateH r.commissionRate)))
              r.referrerId TxType.credit
              (referralCommissionAmount p (effectiveRateH r.commissionRate))
              (some o)).txs.countP q) = s.txs.countP q
          unfold createWalletTransaction
          rw [List.countP_append, txs_creditUserWallet]
          simp [hq]
      · rfl
    · rfl

theorem runReferralFlow_effect (s : Store) (b o : Nat) (p : Int) (r : Referral) (ref : User)
    (hr : getReferralByReferredId s b = some r)
    (ha : r.isActive = true)
    (hc : 0 < referralCommissionAmount p (effectiveRateH r.commissionRate))
    (href : getUser s r.referrerId = some ref) :
    runReferralFlow s b o p =
      { s with
        users := s.users.map (fun u =>
          if u.id = r.referrerId then
            { u with walletBalance := u.walletBalance +
                referralCommissionAmount p (effectiveRateH r.commissionRate) }
          else u),
        txs := s.txs ++ [{ userId := r.referrerId, type := TxType.credit,
                           amount := referralCommissionAmount p (effectiveRateH r.commissionRate),
                           relatedOrderId := some o }],
        referrals := s.referrals.map (fun r2 =>
          if r2.id = r.id then
            { r2 with totalEarned := r2.totalEarned +
                referralCommissionAmount p (effectiveRateH r.commissionRate) }
          else r2),
        refCodes := s.refCodes.map (fun c =>
          if c.userId = r.referrerId then
            { c with totalEarnings := c.totalEarnings +
                referralCommissionAmount p (effectiveRateH r.commissionRate) }
          else c) } := by
  unfold runReferralFlow
  simp only [hr, ha, if_true, href]
  rw [if_pos hc]
  unfold updateReferrerTotalEarnings updateReferralEarnings createWalletTransaction creditUserWallet
  rw [if_neg (by omega : ¬ referralCommissionAmount p (effectiveRateH r.commissionRate) ≤ 0)]

theorem walletFinish_eq_account (s : Store) (uid : Nat) (product : Product) (pid q : Nat)
    (total bal : Int) (d : String) (ids : List Nat) (now : Nat)
    (hd : ¬ d = "") (hcat : product.category = Category.account) :
    walletFinish s uid product pid q total bal d ids now none =
      (runReferralFlow
        (createPendingEarning
          (updateProductStock
            (updateOrderDeliveredContent
              (createOrder (createWalletTransaction (updateUserBalance s uid (bal - total))
                  uid TxType.debit total none)
                uid product.sellerId pid ids.head? q total PaymentMethod.wallet
                OrderStatus.paid now).1
              s.nextOrderId d)
            pid (product.stock - q))
          product.sellerId s.nextOrderId (sellerNetAmount total) (now + threeDaysMs))
        uid s.nextOrderId total,
       PostOrderResult.ok s.nextOrderId) := by
  unfold walletFinish
  simp only [faultHit_none, Bool.false_eq_true, if_false]
  rw [if_pos hd, if_pos hcat]
  rfl

theorem walletFinish_eq_software (s : Store) (uid : Nat) (product : Product) (pid q : Nat)
    (total bal : Int) (now : Nat)
    (hcat : ¬ product.category = Category.account) :
    walletFinish s uid product pid q total bal "" [] now none =
      (runReferralFlow
        (createPendingEarning
          (createOrder (createWalletTransaction (updateUserBalance s uid (bal - total))
              uid TxType.debit total none)
            uid product.sellerId pid none q total PaymentMethod.wallet
            OrderStatus.paid now).1
          product.sellerId s.nextOrderId (sellerNetAmount total) (now + threeDaysMs))
        uid s.nextOrderId total,
       PostOrderResult.ok s.nextOrderId) := by
  unfold walletFinish
  simp only [faultHit_none, Bool.false_eq_true, if_false]
  rw [if_neg (show ¬ (("" : String) ≠ "") from fun h => h rfl), if_neg hcat]
  rfl

theorem walletFulfill_account (s : Store) (uid : Nat) (product : Product) (pid q : Nat)
    (total bal : Int) (now : Nat)
    (hcat : product.category = Category.account)
    (hlen : ¬ ((getAvailableProductItems s pid q now).2.length < q)) :
    walletFulfill s uid product pid q total bal now none =
      walletFinish
        (markItemsSold (getAvailableProductItems s pid q now).1
          (getAvailableProductItems s pid q now).2)
        uid product pid q total bal
        (joinContents ((getAvailableProductItems s pid q now).2.map (fun it => it.content)))
        ((getAvailableProductItems s pid q now).2.map (fun it => it.id)) now none := by
  unfold walletFulfill
  rw [if_pos hcat]
  dsimp only
  rw [if_neg hlen]
  simp only [faultHit_none, Bool.false_eq_true, if_false]

theorem postOrders_wallet_reduce (s : Store) (uid pid q now : Nat)
    (product : Product) (it0 : ProductItem) (buyer : User)
    (hprod : getProductWithSeller s pid = some product)
    (hcat : product.category = Category.account)
    (hstock : (q : Int) ≤ product.stock)
    (hit0 : getAvailableProductItem s pid = some it0)
    (hbuyer : getUser s uid = some buyer)
    (hbal : product.price * q ≤ buyer.walletBalance) :
    postOrders s uid pid q PaymentMethod.wallet now none =
      walletFulfill (reserveProductItem s it0.id (now + thirtyMinutesMs)) uid product pid q
        (product.price * q) buyer.walletBalance now none := by
  unfold postOrders
  simp only [hprod]
  rw [if_neg (by intro hcon; exact absurd hcon.2 (not_lt.mpr hstock))]
  simp only [hcat, if_true, hit0]
  rw [getUser_reserveProductItem, hbuyer]
  dsimp only
  rw [if_neg (not_lt.mpr hbal)]

/-- C1: the wallet branch of POST /api/orders is not one failure unit.  When
the createOrder storage call throws after the debit (fault index 4), the
route answers 500, yet the buyer balance has already dropped from 20000 to
10000 cents, the debit ledger row is committed, a unit is already sold, and
no order row exists: the buyer is charged for goods never delivered.  This
contradicts the claimed all-or-nothing behaviour of the wallet path. -/
theorem C1_wallet_flow_commits_partial_debit :
    (postOrders storeBase 1 10 1 PaymentMethod.wallet 1000 (some 4)).2 =
      PostOrderResult.err OrderError.storageFailure ∧
    getUser storeBase 1 = some { id := 1, walletBalance := 20000 } ∧
    getUser (postOrders storeBase 1 10 1 PaymentMethod.wallet 1000 (some 4)).1 1 =
      some { id := 1, walletBalance := 10000 } ∧
    (postOrders storeBase 1 10 1 PaymentMethod.wallet 1000 (some 4)).1.orders = [] ∧
    (postOrders storeBase 1 10 1 PaymentMethod.wallet 1000 (some 4)).1.txs =
      [{ userId := 1, type := TxType.debit, amount := 10000, relatedOrderId := none }] ∧
    itemById (postOrders storeBase 1 10 1 PaymentMethod.wallet 1000 (some 4)).1 101 =
      some { id := 101, productId := 10, content := "acc2",
             status := ItemStatus.sold, reservedUntil := none } := by
  decide

/-- C3: the admin user-update endpoint writes the walletBalance column
directly without appending any wallet transaction, so the denormalized
balance diverges from the signed ledger sum: starting from a store where
the invariant holds, one PATCH with walletBalance 999.00 breaks it while
leaving the ledger untouched. -/
theorem C3_admin_patch_breaks_ledger_invariant :
    balancesMatchLedger storeLedger ∧
    (adminPatchUser storeLedger 0 (some 99900)).txs = storeLedger.txs ∧
    ¬ balancesMatchLedger (adminPatchUser storeLedger 0 (some 99900)) := by
  decide

/-- C7: sold is not immutable.  Cancelling a paid order through
POST /api/admin/orders/:id/cancel flips its bound sold unit back to
available (the release is unconditional, with no status guard on the order
or on the unit), contradicting the claimed sold-is-terminal property. -/
theorem C7_admin_cancel_flips_sold_unit :
    itemById storePaidOrder 100 =
      some { id := 100, productId := 10, content := "acc1",
             status := ItemStatus.sold, reservedUntil := none } ∧
    orderById storePaidOrder 5 =
      some { id := 5, buyerId := 1, sellerId := 2, productId := 10,
             productItemId := some 100, quantity := 1, price := 10000,
             paymentMethod := PaymentMethod.wallet, status := OrderStatus.paid,
             deliveredContent := some "acc1", createdAt := 0 } ∧
    (adminCancelOrder storePaidOrder 5).2 = true ∧
    itemById (adminCancelOrder storePaidOrder 5).1 100 =
      some { id := 100, productId := 10, content := "acc1",
             status := ItemStatus.available, reservedUntil := none } := by
  decide

/-- C5 counterexample: the pending earning is not exactly 95 percent of the
order price.  A wallet purchase of listing 11 (price 10.99) creates a
pending earning of 10.44, but 10.44 is not exactly 95 percent of 10.99
(in cents: 100 * 1044 is not 95 * 1099); the source rounds
`price * 0.95` to two decimals with toFixed. -/
theorem C5_rounding_counterexample :
    (postOrders storeOddPrice 1 11 1 PaymentMethod.wallet 1000 none).1.earnings =
      [{ id := 70, sellerId := 2, orderId := 50, amount := 1044,
         status := EarningStatus.pending, releaseAt := 1000 + threeDaysMs,
         releasedAt := none }] ∧
    ¬ (100 * (1044 : Int) = 95 * 1099) := by
  decide

/-- C6 counterexample: the referrer credit is not exactly order price times
the referral rate.  For the same 10.99 purchase with an active 5.00 percent
referral, the code credits 0.55 to referrer 3, but 0.55 is not exactly
5 percent of 10.99 (in cents: 10000 * 55 is not 500 * 1099); the source
rounds `price * rate / 100` to two decimals with toFixed. -/
theorem C6_rounding_counterexample :
    getUser (postOrders storeOddPrice 1 11 1 PaymentMethod.wallet 1000 none).1 3 =
      some { id := 3, walletBalance := 55 } ∧
    getUser storeOddPrice 3 = some { id := 3, walletBalance := 0 } ∧
    ¬ (10000 * (55 : Int) = 500 * 1099) := by
  decide

/-- C9 counterexample: the single-unit read used at order creation does not
treat an expired reservation as available.  In a store whose only unit of
listing 10 is reserved with expiry 5, at time 1000 the read returns no unit
even though the reservation is long expired. -/
theorem C9_single_read_counterexample :
    storeExpiredReservation.items =
      [{ id := 100, productId := 10, content := "acc1",
         status := ItemStatus.reserved, reservedUntil := some 5 }] ∧
    isExpired (some 5) 1000 = true ∧
    getAvailableProductItem storeExpiredReservation 10 = none := by
  decide

theorem countP_or_disjoint {α : Type} (l : List α) (p q : α → Bool)
    (h : ∀ a ∈ l, ¬(p a = true ∧ q a = true)) :
    l.countP (fun a => p a || q a) = l.countP p + l.countP q := by
  induction l with
  | nil => rfl
  | cons a t ih =>
    have ha := h a (by simp)
    have ih2 := ih (fun b hb => h b (by simp [hb]))
    simp only [List.countP_cons]
    cases hp : p a <;> cases hq : q a <;>
      simp [hp, hq] at ha ⊢ <;> omega

theorem countP_mem_of_nodup :
    ∀ (L ids : List Nat), L.Nodup → ids.Nodup → (∀ i ∈ ids, i ∈ L) →
      L.countP (fun x => decide (x ∈ ids)) = ids.length := by
  intro L
  induction L with
  | nil =>
    intro ids _ _ hsub
    cases ids with
    | nil => rfl
    | cons i t => exact absurd (hsub i (by simp)) (by simp)
  | cons a L ih =>
    intro ids hL hids hsub
    have hL2 : L.Nodup := (List.nodup_cons.mp hL).2
    have haL : a ∉ L := (List.nodup_cons.mp hL).1
    rw [List.countP_cons]
    by_cases ha : a ∈ ids
    · have congr2 : L.countP (fun x => decide (x ∈ ids))
          = L.countP (fun x => decide (x ∈ ids.erase a)) := by
        apply List.countP_congr
        intro x hx
        have hxa : x ≠ a := fun e => haL (e ▸ hx)
        simp [List.mem_erase_of_ne hxa]
      have hsub2 : ∀ i ∈ ids.erase a, i ∈ L := by
        intro i hi
        have hine : i ≠ a := (hids.mem_erase_iff.mp hi).1
        have himem : i ∈ ids := (hids.mem_erase_iff.mp hi).2
        rcases List.mem_cons.mp (hsub i himem) with rfl | hmem
        · exact absurd rfl hine
        · exact hmem
      rw [congr2, ih (ids.erase a) hL2 (hids.erase a) hsub2]
      have hlen : (ids.erase a).length = ids.length - 1 := List.length_erase_of_mem ha
      have hpos : 1 ≤ ids.length := List.length_pos.mpr (fun e => by simp [e] at ha)
      simp [ha]
      omega
    · have hsub2 : ∀ i ∈ ids, i ∈ L := by
        intro i hi
        rcases List.mem_cons.mp (hsub i hi) with rfl | hmem
        · exact absurd hi ha
        · exact hmem
      rw [ih ids hL2 hids hsub2]
      simp [ha]

theorem markItemsSold_items (s : Store) (picks : List ProductItem) :
    (markItemsSold s picks).items =
      s.items.map (applySoldIds (picks.map (fun it => it.id))) := by
  induction picks generalizing s with
  | nil =>
    show s.items = _
    have h1 : ∀ it ∈ s.items, applySoldIds (List.map (fun it => it.id) ([] : List ProductItem)) it = it :=
      fun it _ => by simp [applySoldIds]
    rw [List.map_congr_left h1, List.map_id']
  | cons p ps ih =>
    show (markItemsSold (updateProductItemStatus s p.id ItemStatus.sold) ps).items = _
    rw [ih]
    unfold updateProductItemStatus
    dsimp only
    rw [List.map_map]
    apply List.map_congr_left
    intro it _
    simp only [Function.comp, List.map_cons]
    by_cases hid : it.id = p.id
    · by_cases hmem : it.id ∈ ps.map (fun it => it.id) <;>
        simp [applySoldIds, hid, hmem]
    · by_cases hmem : it.id ∈ ps.map (fun it => it.id) <;>
        simp [applySoldIds, hid, hmem]

theorem markItemsSold_frame (s : Store) (picks : List ProductItem) :
    (markItemsSold s picks).orders = s.orders ∧
    (markItemsSold s picks).txs = s.txs ∧
    (markItemsSold s picks).earnings = s.earnings ∧
    (markItemsSold s picks).products = s.products ∧
    (markItemsSold s picks).referrals = s.referrals ∧
    (markItemsSold s picks).nextOrderId = s.nextOrderId ∧
    (markItemsSold s picks).nextEarningId = s.nextEarningId := by
  induction picks generalizing s with
  | nil => exact ⟨rfl, rfl, rfl, rfl, rfl, rfl, rfl⟩
  | cons p ps ih => exact ih (updateProductItemStatus s p.id ItemStatus.sold)

theorem afterRS_items (s : Store) (pid now iid T : Nat) (hT : ¬ T < now) :
    (sweepExpiredForProduct (reserveProductItem s iid T) pid now).items =
      s.items.map (fun it =>
        if it.id = iid then { it with status := ItemStatus.reserved, reservedUntil := some T }
        else if decide (it.productId = pid ∧ it.status = ItemStatus.reserved)
                  && isExpired it.reservedUntil now then
          { it with status := ItemStatus.available, reservedUntil := none }
        else it) := by
  unfold sweepExpiredForProduct reserveProductItem
  dsimp only
  rw [List.map_map]
  apply List.map_congr_left
  intro it _
  simp only [Function.comp]
  by_cases hid : it.id = iid
  · simp only [if_pos hid]
    have h2 : isExpired (some T) now = false := by simp [isExpired, hT]
    simp [h2]
  · simp only [if_neg hid]

theorem availList_afterRS (s : Store) (pid now iid T : Nat) (hT : ¬ T < now) :
    availableItemsOf (sweepExpiredForProduct (reserveProductItem s iid T) pid now) pid =
      (s.items.filter (fun it =>
          decide (¬ it.id = iid) && decide (it.productId = pid ∧ logicallyAvailable it now))).map
        (fun it =>
          if decide (it.productId = pid ∧ it.status = ItemStatus.reserved)
                && isExpired it.reservedUntil now then
            { it with status := ItemStatus.available, reservedUntil := none }
          else it) := by
  unfold availableItemsOf
  rw [afterRS_items s pid now iid T hT, List.filter_map]
  have hfc : ∀ it ∈ s.items,
      ((fun it : ProductItem =>
          decide (it.productId = pid ∧ it.status = ItemStatus.available)) ∘
        (fun it : ProductItem =>
          if it.id = iid then { it with status := ItemStatus.reserved, reservedUntil := some T }
          else if decide (it.productId = pid ∧ it.status = ItemStatus.reserved)
                    && isExpired it.reservedUntil now then
            { it with status := ItemStatus.available, reservedUntil := none }
          else it)) it
      = (fun it : ProductItem =>
          decide (¬ it.id = iid) && decide (it.productId = pid ∧ logicallyAvailable it now)) it := by
    intro it _
    simp only [Function.comp]
    by_cases hid : it.id = iid
    · simp [hid]
    · simp only [if_neg hid]
      by_cases hsw : (decide (it.productId = pid ∧ it.status = ItemStatus.reserved)
          && isExpired it.reservedUntil now) = true
      · simp only [if_pos hsw]
        rw [Bool.and_eq_true, decide_eq_true_eq] at hsw
        simp [hid, logicallyAvailable, hsw.1.1, hsw.1.2, hsw.2]
      · simp only [if_neg hsw]
        rw [Bool.and_eq_true] at hsw
        push_neg at hsw
        simp only [hid, decide_not, logicallyAvailable]
        by_cases hpid : it.productId = pid
        · by_cases hav : it.status = ItemStatus.available
          · simp [hpid, hav]
          · have hne : ¬ (it.status = ItemStatus.reserved ∧ isExpired it.reservedUntil now = true) := by
              intro hcon
              have := hsw (by rw [decide_eq_true_eq]; exact ⟨hpid, hcon.1⟩)
              rw [hcon.2] at this
              exact absurd this (by simp)
            simp [hpid, hav, hne]
        · simp [hpid]
    
  rw [List.filter_congr hfc]
  apply List.map_congr_left
  intro it hmem
  have hni : ¬ it.id = iid := by
    have h3 := (List.mem_filter.mp hmem).2
    rw [Bool.and_eq_true] at h3
    have h4 := h3.1
    rw [decide_eq_true_eq] at h4
    exact h4
  simp only [if_neg hni]

theorem sweep_reserve_identity (s : Store) (pid now iid T : Nat) (hT : ¬ T < now)
    (hnoexp : ∀ it ∈ s.items, it.productId = pid → it.status = ItemStatus.reserved →
      isExpired it.reservedUntil now = false) :
    sweepExpiredForProduct (reserveProductItem s iid T) pid now = reserveProductItem s iid T := by
  unfold sweepExpiredForProduct
  have hmap : (reserveProductItem s iid T).items.map (fun it =>
      if decide (it.productId = pid ∧ it.status = ItemStatus.reserved)
            && isExpired it.reservedUntil now then
        { it with status := ItemStatus.available, reservedUntil := none }
      else it) = (reserveProductItem s iid T).items := by
    have h1 : ∀ it2 ∈ (reserveProductItem s iid T).items,
        (if decide (it2.productId = pid ∧ it2.status = ItemStatus.reserved)
              && isExpired it2.reservedUntil now then
          { it2 with status := ItemStatus.available, reservedUntil := none }
        else it2) = it2 := by
      intro it2 hmem
      unfold reserveProductItem at hmem
      dsimp only at hmem
      rcases List.mem_map.mp hmem with ⟨it, hit, rfl⟩
      by_cases hid : it.id = iid
      · rw [if_pos hid]
        have : isExpired (some T) now = false := by simp [isExpired, hT]
        simp [this]
      · rw [if_neg hid]
        by_cases hpid : it.productId = pid
        · by_cases hres : it.status = ItemStatus.reserved
          · simp [hnoexp it hit hpid hres]
          · simp [hres]
        · simp [hpid]
    rw [List.map_congr_left h1, List.map_id']
  rw [hmap]

theorem countP_and_split {α : Type} (l : List α) (p e : α → Bool) :
    l.countP p = l.countP (fun a => p a && e a) + l.countP (fun a => p a && !e a) := by
  induction l with
  | nil => rfl
  | cons a t ih =>
    simp only [List.countP_cons]
    cases hp : p a <;> cases he : e a <;> simp [hp, he] <;> omega

theorem find?_id_of_mem (l : List ProductItem)
    (hN : (l.map (fun it => it.id)).Nodup) (it : ProductItem) (hmem : it ∈ l) :
    l.find? (fun x => decide (x.id = it.id)) = some it := by
  induction l with
  | nil => cases hmem
  | cons a t ih =>
    by_cases ha : a.id = it.id
    · have : a = it := by
        rcases List.mem_cons.mp hmem with rfl | hmem2
        · rfl
        · exact List.inj_on_of_nodup_map hN (by simp) (by simp [hmem2]) ha
      subst this
      simp [List.find?_cons]
    · have e : decide (a.id = it.id) = false := by
        rw [decide_eq_false_iff_not]; exact ha
      have hmem2 : it ∈ t := by
        rcases List.mem_cons.mp hmem with rfl | hmem2
        · exact absurd rfl ha
        · exact hmem2
      have hN2 : (t.map (fun it => it.id)).Nodup := by
        simp only [List.map_cons, List.nodup_cons] at hN
        exact hN.2
      simp only [List.find?_cons, e]
      exact ih hN2 hmem2

theorem find?_map_reserve (l : List ProductItem) (iid T : Nat) :
    (l.map (fun it =>
        if it.id = iid then { it with status := ItemStatus.reserved, reservedUntil := some T }
        else it)).find? (fun x => decide (x.id = iid))
      = (l.find? (fun x => decide (x.id = iid))).map
          (fun it => { it with status := ItemStatus.reserved, reservedUntil := some T }) := by
  induction l with
  | nil => rfl
  | cons a t ih =>
    simp only [List.map_cons]
    by_cases ha : a.id = iid
    · rw [if_pos ha]
      have e1 : decide
          (({ a with status := ItemStatus.reserved, reservedUntil := some T } : ProductItem).id
            = iid) = true := by
        rw [decide_eq_true_eq]; exact ha
      have e0 : decide (a.id = iid) = true := by rw [decide_eq_true_eq]; exact ha
      simp only [List.find?_cons, e1, e0]
      rfl
    · rw [if_neg ha]
      have e0 : decide (a.id = iid) = false := by rw [decide_eq_false_iff_not]; exact ha
      simp only [List.find?_cons, e0, ih]

/-- Availability bookkeeping for the exact-stock scenario: after removing
one unit with a fresh reservation, the multi-unit read sees one unit fewer. -/
theorem availList_sR_length (s : Store) (pid now q : Nat) (it0 : ProductItem)
    (hWFi : (s.items.map (fun it => it.id)).Nodup)
    (hit0 : getAvailableProductItem s pid = some it0)
    (hcount : (availableItemsOf s pid).length = q)
    (hnoexp : ∀ it ∈ s.items, it.productId = pid → it.status = ItemStatus.reserved →
        isExpired it.reservedUntil now = false) :
    (availableItemsOf
        (sweepExpiredForProduct
          (reserveProductItem s it0.id (now + thirtyMinutesMs)) pid now) pid).length
      = q - 1 := by
  have hT : ¬ now + thirtyMinutesMs < now := by omega
  unfold getAvailableProductItem at hit0
  have hmem0 : it0 ∈ s.items := List.mem_of_find?_eq_some hit0
  have hpred0 := List.find?_some hit0
  rw [decide_eq_true_eq] at hpred0
  have availP_it0 : decide (it0.productId = pid ∧ it0.status = ItemStatus.available) = true := by
    rw [decide_eq_true_eq]; exact hpred0
  have hcount2 : s.items.countP
      (fun it => decide (it.productId = pid ∧ it.status = ItemStatus.available)) = q := by
    rw [List.countP_eq_length_filter]
    exact hcount
  have count_id : s.items.countP (fun it => decide (it.id = it0.id)) = 1 := by
    have step1 : s.items.countP (fun it => decide (it.id = it0.id))
        = s.items.countP (fun it => decide (it.id ∈ [it0.id])) := by
      apply List.countP_congr
      intro it _
      simp
    have step2 : s.items.countP (fun it => decide (it.id ∈ [it0.id]))
        = (s.items.map (fun it => it.id)).countP (fun x => decide (x ∈ [it0.id])) := by
      rw [List.countP_map]
      rfl
    rw [step1, step2,
      countP_mem_of_nodup (s.items.map (fun it => it.id)) [it0.id] hWFi (by simp)
        (by simp only [List.mem_singleton, List.mem_map, forall_eq]
            exact ⟨it0, hmem0, rfl⟩)]
    rfl
  have count_avail_id : s.items.countP
      (fun it => decide (it.productId = pid ∧ it.status = ItemStatus.available)
        && decide (it.id = it0.id)) = 1 := by
    rw [← count_id]
    apply List.countP_congr
    intro it hit
    by_cases hid : it.id = it0.id
    · have : it = it0 := List.inj_on_of_nodup_map hWFi hit hmem0 hid
      subst this
      simp [hpred0]
    · simp [hid]
  have count_rest : s.items.countP
      (fun it => decide (it.productId = pid ∧ it.status = ItemStatus.available)
        && !decide (it.id = it0.id)) = q - 1 := by
    have := countP_and_split s.items
      (fun it => decide (it.productId = pid ∧ it.status = ItemStatus.available))
      (fun it => decide (it.id = it0.id))
    rw [hcount2, count_avail_id] at this
    omega
  rw [availList_afterRS s pid now it0.id (now + thirtyMinutesMs) hT, List.length_map,
    ← List.countP_eq_length_filter]
  rw [← count_rest]
  apply List.countP_congr
  intro it hit
  constructor
  · intro h
    rw [Bool.and_eq_true] at h ⊢
    rcases h with ⟨h1, h2⟩
    rw [decide_eq_true_eq] at h2
    rcases h2 with ⟨hpid, hlog⟩
    rw [decide_eq_true_eq] at h1
    refine ⟨?_, ?_⟩
    · rw [decide_eq_true_eq]
      rcases hlog with hav | ⟨hres, hexp⟩
      · exact ⟨hpid, hav⟩
      · rw [hnoexp it hit hpid hres] at hexp
        cases hexp
    · simp [h1]
  · intro h
    rw [Bool.and_eq_true] at h ⊢
    rcases h with ⟨h1, h2⟩
    rw [decide_eq_true_eq] at h1
    refine ⟨?_, ?_⟩
    · rw [decide_eq_true_eq]
      intro e
      rw [e] at h2
      simp at h2
    · rw [decide_eq_true_eq]
      exact ⟨h1.1, Or.inl h1.2⟩


/-- C10: the wallet handler reserves one unit before the payment branch and
that unit is excluded from the available-items read, so a purchase of
exactly the remaining stock fails.  Under the stated store shape (the unit
table has q available units of the listing, no expired reservations, the
stock counter and the buyer balance suffice), the purchase returns the
insufficient-inventory error naming q - 1 units, the whole store change is
the single 30-minute reservation, that unit stays reserved, and no order
row is created. -/
theorem C10_reservation_starves_exact_stock
    (s : Store) (uid pid q now : Nat) (product : Product) (it0 : ProductItem) (buyer : User)
    (hWFi : (s.items.map (fun it => it.id)).Nodup)
    (hprod : getProductWithSeller s pid = some product)
    (hcat : product.category = Category.account)
    (hstock : (q : Int) ≤ product.stock)
    (hit0 : getAvailableProductItem s pid = some it0)
    (hbuyer : getUser s uid = some buyer)
    (hbal : product.price * q ≤ buyer.walletBalance)
    (hq1 : 1 ≤ q)
    (hcount : (availableItemsOf s pid).length = q)
    (hnoexp : ∀ it ∈ s.items, it.productId = pid → it.status = ItemStatus.reserved →
        isExpired it.reservedUntil now = false) :
    (postOrders s uid pid q PaymentMethod.wallet now none).2 =
        PostOrderResult.err (OrderError.insufficientInventory (q - 1)) ∧
    (postOrders s uid pid q PaymentMethod.wallet now none).1 =
        reserveProductItem s it0.id (now + thirtyMinutesMs) ∧
    itemById (postOrders s uid pid q PaymentMethod.wallet now none).1 it0.id =
        some { it0 with
               status := ItemStatus.reserved,
               reservedUntil := some (now + thirtyMinutesMs) } ∧
    (postOrders s uid pid q PaymentMethod.wallet now none).1.orders = s.orders ∧
    (postOrders s uid pid q PaymentMethod.wallet now none).1.users = s.users := by
  have hT : ¬ now + thirtyMinutesMs < now := by omega
  have hlen := availList_sR_length s pid now q it0 hWFi hit0 hcount hnoexp
  have hp2 : (getAvailableProductItems
      (reserveProductItem s it0.id (now + thirtyMinutesMs)) pid q now).2.length = q - 1 := by
    unfold getAvailableProductItems
    dsimp only
    rw [List.length_take, hlen]
    omega
  have hmain : postOrders s uid pid q PaymentMethod.wallet now none =
      (reserveProductItem s it0.id (now + thirtyMinutesMs),
       PostOrderResult.err (OrderError.insufficientInventory (q - 1))) := by
    rw [postOrders_wallet_reduce s uid pid q now product it0 buyer hprod hcat hstock hit0
      hbuyer hbal]
    unfold walletFulfill
    rw [if_pos hcat]
    dsimp only
    rw [if_pos (by rw [hp2]; omega)]
    rw [hp2]
    rw [show (getAvailableProductItems
        (reserveProductItem s it0.id (now + thirtyMinutesMs)) pid q now).1
      = sweepExpiredForProduct
          (reserveProductItem s it0.id (now + thirtyMinutesMs)) pid now from rfl]
    rw [sweep_reserve_identity s pid now it0.id (now + thirtyMinutesMs) hT hnoexp]
  have hmem0 : it0 ∈ s.items := by
    unfold getAvailableProductItem at hit0
    exact List.mem_of_find?_eq_some hit0
  refine ⟨by rw [hmain], by rw [hmain], ?_, by rw [hmain]; rfl, by rw [hmain]; rfl⟩
  rw [hmain]
  unfold itemById reserveProductItem
  dsimp only
  rw [find?_map_reserve, show s.items.find? (fun x => decide (x.id = it0.id))
      = some it0 from find?_id_of_mem s.items hWFi it0 hmem0]
  rfl

/-- Witness for C10 at a concrete store: two available units, quantity two,
stock two, funded buyer; the purchase fails naming one remaining unit. -/
theorem C10_reservation_starves_exact_stock_witness :
    (postOrders storeExactStock 1 10 2 PaymentMethod.wallet 1000 none).2 =
      PostOrderResult.err (OrderError.insufficientInventory 1) ∧
    (postOrders storeExactStock 1 10 2 PaymentMethod.wallet 1000 none).1.orders = [] :=
  ⟨(C10_reservation_starves_exact_stock storeExactStock 1 10 2 1000 listing10 unit100 buyer1
      (by decide) (by decide) (by decide) (by decide) (by decide) (by decide) (by decide)
      (by decide) (by decide) (by decide)).1,
   (C10_reservation_starves_exact_stock storeExactStock 1 10 2 1000 listing10 unit100 buyer1
      (by decide) (by decide) (by decide) (by decide) (by decide) (by decide) (by decide)
      (by decide) (by decide) (by decide)).2.2.2.1⟩

theorem string_eq_empty_of_length (s : String) (h : s.length = 0) : s = "" := by
  cases s with
  | mk data =>
    simp [String.length] at h
    simp [h]

theorem joinContents_length (a : String) (l : List String) :
    a.length ≤ (joinContents (a :: l)).length := by
  cases l with
  | nil => exact Nat.le_refl _
  | cons b t =>
    show a.length ≤ (a ++ "\n" ++ joinContents (b :: t)).length
    rw [String.length_append, String.length_append]
    omega

theorem joinContents_ne_empty (a : String) (l : List String) (ha : ¬ a = "") :
    ¬ joinContents (a :: l) = "" := by
  intro h
  apply ha
  apply string_eq_empty_of_length
  have h1 := joinContents_length a l
  rw [h] at h1
  simpa using h1

theorem orderById_append_upd (orders : List Order) (o : Order) (d : String)
    (hfresh : ∀ o2 ∈ orders, ¬ o2.id = o.id) :
    ((orders ++ [o]).map (fun o2 =>
        if o2.id = o.id then { o2 with deliveredContent := some d } else o2)).find?
      (fun x => decide (x.id = o.id))
      = some { o with deliveredContent := some d } := by
  induction orders with
  | nil =>
    simp [List.find?_cons]
  | cons a t ih =>
    have hne : ¬ a.id = o.id := hfresh a (by simp)
    have e0 : decide (a.id = o.id) = false := by rw [decide_eq_false_iff_not]; exact hne
    simp only [List.cons_append, List.map_cons]
    rw [if_neg hne]
    simp only [List.find?_cons, e0]
    exact ih (fun o2 h => hfresh o2 (by simp [h]))

theorem countP_item_ids (l : List ProductItem) (ids : List Nat)
    (hN : (l.map (fun it => it.id)).Nodup) (hids : ids.Nodup)
    (hsub : ∀ i ∈ ids, i ∈ l.map (fun it => it.id)) :
    l.countP (fun it => decide (it.id ∈ ids)) = ids.length := by
  have step : l.countP (fun it => decide (it.id ∈ ids))
      = (l.map (fun it => it.id)).countP (fun x => decide (x ∈ ids)) := by
    rw [List.countP_map]
    rfl
  rw [step, countP_mem_of_nodup _ ids hN hids hsub]

theorem count_avail_id_one (s : Store) (pid : Nat) (it0 : ProductItem)
    (hWFi : (s.items.map (fun it => it.id)).Nodup)
    (hit0 : getAvailableProductItem s pid = some it0) :
    s.items.countP (fun it =>
      decide (it.productId = pid ∧ it.status = ItemStatus.available)
        && decide (it.id = it0.id)) = 1 := by
  unfold getAvailableProductItem at hit0
  have hmem0 : it0 ∈ s.items := List.mem_of_find?_eq_some hit0
  have hpred0 := List.find?_some hit0
  rw [decide_eq_true_eq] at hpred0
  have count_id : s.items.countP (fun it => decide (it.id = it0.id)) = 1 := by
    have step1 : s.items.countP (fun it => decide (it.id = it0.id))
        = s.items.countP (fun it => decide (it.id ∈ [it0.id])) := by
      apply List.countP_congr
      intro it _
      simp
    rw [step1, countP_item_ids s.items [it0.id] hWFi (by simp)
      (by simp only [List.mem_singleton, forall_eq]
          exact List.mem_map.mpr ⟨it0, hmem0, rfl⟩)]
    rfl
  rw [← count_id]
  apply List.countP_congr
  intro it hit
  by_cases hid : it.id = it0.id
  · have : it = it0 := List.inj_on_of_nodup_map hWFi hit hmem0 hid
    subst this
    simp [hpred0]
  · simp [hid]

/-- After the pre-branch reservation, the swept availability pool still has
at least q units when the raw pool had q + 1. -/
theorem wallet_pick_len (s : Store) (pid now q : Nat) (it0 : ProductItem)
    (hWFi : (s.items.map (fun it => it.id)).Nodup)
    (hit0 : getAvailableProductItem s pid = some it0)
    (hinv : q + 1 ≤ (availableItemsOf s pid).length) :
    q ≤ (availableItemsOf
        (sweepExpiredForProduct
          (reserveProductItem s it0.id (now + thirtyMinutesMs)) pid now) pid).length := by
  have hT : ¬ now + thirtyMinutesMs < now := by omega
  have hone := count_avail_id_one s pid it0 hWFi hit0
  have hsplit := countP_and_split s.items
    (fun it => decide (it.productId = pid ∧ it.status = ItemStatus.available))
    (fun it => decide (it.id = it0.id))
  have hinv2 : q + 1 ≤ s.items.countP
      (fun it => decide (it.productId = pid ∧ it.status = ItemStatus.available)) := by
    rw [List.countP_eq_length_filter]
    exact hinv
  have hrest : q ≤ s.items.countP
      (fun it => decide (it.productId = pid ∧ it.status = ItemStatus.available)
        && !decide (it.id = it0.id)) := by
    omega
  rw [availList_afterRS s pid now it0.id (now + thirtyMinutesMs) hT, List.length_map,
    ← List.countP_eq_length_filter]
  refine le_trans hrest (List.countP_mono_left ?_)
  intro it _ h
  rw [Bool.and_eq_true] at h ⊢
  rcases h with ⟨h1, h2⟩
  rw [decide_eq_true_eq] at h1
  constructor
  · rw [decide_eq_true_eq]
    intro e
    rw [e] at h2
    simp at h2
  · rw [decide_eq_true_eq]
    exact ⟨h1.1, Or.inl h1.2⟩

/-- Shape of the item batch fetched by the wallet branch: q units, pairwise
distinct ids, none of them the pre-reserved unit, and each corresponding to
a unit of the original store that was logically available. -/
theorem wallet_picks_spec (s : Store) (pid now q : Nat) (it0 : ProductItem)
    (hWFi : (s.items.map (fun it => it.id)).Nodup)
    (hit0 : getAvailableProductItem s pid = some it0)
    (hinv : q + 1 ≤ (availableItemsOf s pid).length) :
    ((getAvailableProductItems
        (reserveProductItem s it0.id (now + thirtyMinutesMs)) pid q now).2.length = q) ∧
    (((getAvailableProductItems
        (reserveProductItem s it0.id (now + thirtyMinutesMs)) pid q now).2.map
          (fun it => it.id)).Nodup) ∧
    (∀ p2 ∈ (getAvailableProductItems
        (reserveProductItem s it0.id (now + thirtyMinutesMs)) pid q now).2,
      ∃ it ∈ s.items, it.id = p2.id ∧ it.productId = pid ∧ it.content = p2.content ∧
        logicallyAvailable it now ∧ ¬ it.id = it0.id) := by
  have hT : ¬ now + thirtyMinutesMs < now := by omega
  have hlen := wallet_pick_len s pid now q it0 hWFi hit0 hinv
  unfold getAvailableProductItems
  dsimp only
  refine ⟨?_, ?_, ?_⟩
  · rw [List.length_take]
    omega
  · have hsub : List.Sublist
        (((availableItemsOf (sweepExpiredForProduct
            (reserveProductItem s it0.id (now + thirtyMinutesMs)) pid now) pid).take q).map
          (fun it => it.id))
        ((availableItemsOf (sweepExpiredForProduct
            (reserveProductItem s it0.id (now + thirtyMinutesMs)) pid now) pid).map
          (fun it => it.id)) :=
      (List.take_sublist q _).map _
    refine List.Nodup.sublist hsub ?_
    rw [availList_afterRS s pid now it0.id (now + thirtyMinutesMs) hT, List.map_map]
    have hcongr : (s.items.filter (fun it =>
        decide (¬ it.id = it0.id) && decide (it.productId = pid ∧ logicallyAvailable it now))).map
          ((fun it => it.id) ∘ (fun it : ProductItem =>
            if decide (it.productId = pid ∧ it.status = ItemStatus.reserved)
                  && isExpired it.reservedUntil now then
              { it with status := ItemStatus.available, reservedUntil := none }
            else it))
        = (s.items.filter (fun it =>
            decide (¬ it.id = it0.id) && decide (it.productId = pid ∧ logicallyAvailable it now))).map
          (fun it => it.id) := by
      apply List.map_congr_left
      intro it _
      simp only [Function.comp]
      by_cases hsw : (decide (it.productId = pid ∧ it.status = ItemStatus.reserved)
          && isExpired it.reservedUntil now) = true
      · simp only [if_pos hsw]
      · simp only [if_neg hsw]
    rw [hcongr]
    exact List.Nodup.sublist ((List.filter_sublist s.items).map _) hWFi
  · intro p2 hp2
    have hp2b := List.mem_of_mem_take hp2
    rw [availList_afterRS s pid now it0.id (now + thirtyMinutesMs) hT] at hp2b
    rcases List.mem_map.mp hp2b with ⟨it, hitf, rfl⟩
    have hitm := List.mem_filter.mp hitf
    have hcond := hitm.2
    rw [Bool.and_eq_true, decide_eq_true_eq, decide_eq_true_eq] at hcond
    refine ⟨it, hitm.1, ?_, hcond.2.1, ?_, hcond.2.2, hcond.1⟩
    · by_cases hsw : (decide (it.productId = pid ∧ it.status = ItemStatus.reserved)
          && isExpired it.reservedUntil now) = true
      · simp only [if_pos hsw]
      · simp only [if_neg hsw]
    · by_cases hsw : (decide (it.productId = pid ∧ it.status = ItemStatus.reserved)
          && isExpired it.reservedUntil now) = true
      · simp only [if_pos hsw]
      · simp only [if_neg hsw]

/-- Marking the fetched batch sold raises the sold count of the listing by
exactly the requested quantity. -/
theorem wallet_sold_count (s : Store) (pid now q : Nat) (it0 : ProductItem)
    (hWFi : (s.items.map (fun it => it.id)).Nodup)
    (hit0 : getAvailableProductItem s pid = some it0)
    (hinv : q + 1 ≤ (availableItemsOf s pid).length) :
    ((markItemsSold
        (sweepExpiredForProduct (reserveProductItem s it0.id (now + thirtyMinutesMs)) pid now)
        (getAvailableProductItems
          (reserveProductItem s it0.id (now + thirtyMinutesMs)) pid q now).2).items).countP
      (fun it => decide (it.productId = pid ∧ it.status = ItemStatus.sold))
    = s.items.countP (fun it => decide (it.productId = pid ∧ it.status = ItemStatus.sold)) + q := by
  have hT : ¬ now + thirtyMinutesMs < now := by omega
  obtain ⟨hlen, hnd, hcorr⟩ := wallet_picks_spec s pid now q it0 hWFi hit0 hinv
  have hmem0 : it0 ∈ s.items := by
    unfold getAvailableProductItem at hit0
    exact List.mem_of_find?_eq_some hit0
  have hpred0 := by
    unfold getAvailableProductItem at hit0
    exact List.find?_some hit0
  rw [decide_eq_true_eq] at hpred0
  rw [markItemsSold_items, afterRS_items s pid now it0.id (now + thirtyMinutesMs) hT,
    List.map_map, List.countP_map]
  have hclass : ∀ it ∈ s.items,
      (((fun it => decide (it.productId = pid ∧ it.status = ItemStatus.sold)) ∘
        (applySoldIds ((getAvailableProductItems
            (reserveProductItem s it0.id (now + thirtyMinutesMs)) pid q now).2.map
          (fun it => it.id)) ∘
          (fun it : ProductItem =>
            if it.id = it0.id then
              { it with status := ItemStatus.reserved, reservedUntil := some (now + thirtyMinutesMs) }
            else if decide (it.productId = pid ∧ it.status = ItemStatus.reserved)
                      && isExpired it.reservedUntil now then
              { it with status := ItemStatus.available, reservedUntil := none }
            else it))) it = true)
      ↔ ((fun it => decide (it.id ∈ (getAvailableProductItems
            (reserveProductItem s it0.id (now + thirtyMinutesMs)) pid q now).2.map
              (fun it => it.id))
          || decide (it.productId = pid ∧ it.status = ItemStatus.sold)) it = true) := by
    intro it hitmem
    simp only [Function.comp]
    by_cases hmem : it.id ∈ (getAvailableProductItems
        (reserveProductItem s it0.id (now + thirtyMinutesMs)) pid q now).2.map
          (fun it => it.id)
    · rcases List.mem_map.mp hmem with ⟨p2, hp2, hp2id⟩
      rcases hcorr p2 hp2 with ⟨it2, hit2mem, hit2id, hit2pid, _, _, hit2ne⟩
      have hiteq : it2 = it := List.inj_on_of_nodup_map hWFi hit2mem hitmem (by omega)
      have hitne : ¬ it.id = it0.id := by
        rw [← hiteq]
        exact hit2ne
      have hitpid : it.productId = pid := by rw [← hiteq]; exact hit2pid
      simp only [if_neg hitne]
      by_cases hsw : (decide (it.productId = pid ∧ it.status = ItemStatus.reserved)
          && isExpired it.reservedUntil now) = true
      · simp only [if_pos hsw]
        simp [applySoldIds, hmem, hitpid]
      · simp only [if_neg hsw]
        simp [applySoldIds, hmem, hitpid]
    · have hmemb : decide (it.id ∈ (getAvailableProductItems
          (reserveProductItem s it0.id (now + thirtyMinutesMs)) pid q now).2.map
            (fun it => it.id)) = false := by
        rw [decide_eq_false_iff_not]
        exact hmem
      by_cases hid : it.id = it0.id
      · have hiteq : it = it0 := List.inj_on_of_nodup_map hWFi hitmem hmem0 hid
        simp only [if_pos hid, hmemb, Bool.false_or]
        have happ : applySoldIds ((getAvailableProductItems
            (reserveProductItem s it0.id (now + thirtyMinutesMs)) pid q now).2.map
              (fun it => it.id))
            ({ it with
               status := ItemStatus.reserved,
               reservedUntil := some (now + thirtyMinutesMs) } : ProductItem)
            = { it with
                status := ItemStatus.reserved,
                reservedUntil := some (now + thirtyMinutesMs) } := by
          unfold applySoldIds
          exact if_neg hmem
        rw [happ]
        constructor
        · intro h
          rw [decide_eq_true_eq] at h
          exact absurd h.2 (by simp)
        · intro h
          rw [decide_eq_true_eq] at h
          rw [hiteq, hpred0.2] at h
          exact absurd h.2 (by simp)
      · simp only [if_neg hid, hmemb, Bool.false_or]
        by_cases hsw : (decide (it.productId = pid ∧ it.status = ItemStatus.reserved)
            && isExpired it.reservedUntil now) = true
        · simp only [if_pos hsw]
          have happ : applySoldIds ((getAvailableProductItems
              (reserveProductItem s it0.id (now + thirtyMinutesMs)) pid q now).2.map
                (fun it => it.id))
              ({ it with status := ItemStatus.available, reservedUntil := none } : ProductItem)
              = { it with status := ItemStatus.available, reservedUntil := none } := by
            unfold applySoldIds
            exact if_neg hmem
          rw [happ]
          rw [Bool.and_eq_true, decide_eq_true_eq] at hsw
          constructor
          · intro h
            rw [decide_eq_true_eq] at h
            exact absurd h.2 (by simp)
          · intro h
            rw [decide_eq_true_eq] at h
            rw [hsw.1.2] at h
            exact absurd h.2 (by simp)
        · simp only [if_neg hsw]
          have happ : applySoldIds ((getAvailableProductItems
              (reserveProductItem s it0.id (now + thirtyMinutesMs)) pid q now).2.map
                (fun it => it.id)) it = it := by
            unfold applySoldIds
            exact if_neg hmem
          rw [happ]
  rw [List.countP_congr hclass]
  rw [countP_or_disjoint]
  · have hsub : ∀ i ∈ (getAvailableProductItems
        (reserveProductItem s it0.id (now + thirtyMinutesMs)) pid q now).2.map
          (fun it => it.id), i ∈ s.items.map (fun it => it.id) := by
      intro i hi
      rcases List.mem_map.mp hi with ⟨p2, hp2, hp2id⟩
      rcases hcorr p2 hp2 with ⟨it2, hit2mem, hit2id, _, _, _, _⟩
      exact List.mem_map.mpr ⟨it2, hit2mem, by omega⟩
    rw [countP_item_ids s.items _ hWFi hnd hsub, List.length_map, hlen]
    omega
  · intro it hitmem hcon
    rcases hcon with ⟨h1, h2⟩
    rw [decide_eq_true_eq] at h1 h2
    rcases List.mem_map.mp h1 with ⟨p2, hp2, hp2id⟩
    rcases hcorr p2 hp2 with ⟨it2, hit2mem, hit2id, _, _, hlog, _⟩
    have hiteq : it2 = it := List.inj_on_of_nodup_map hWFi hit2mem hitmem (by omega)
    rw [hiteq] at hlog
    rcases hlog with hav | ⟨hres, _⟩
    · rw [h2.2] at hav
      cases hav
    · rw [h2.2] at hres
      cases hres


theorem wallet_account_success_effects (s : Store) (uid pid q now : Nat)
    (product : Product) (it0 : ProductItem) (buyer : User)
    (hWFi : (s.items.map (fun it => it.id)).Nodup)
    (hfresh : ∀ o ∈ s.orders, o.id < s.nextOrderId)
    (hprod : getProductWithSeller s pid = some product)
    (hcat : product.category = Category.account)
    (hstock : (q : Int) ≤ product.stock)
    (hit0 : getAvailableProductItem s pid = some it0)
    (hbuyer : getUser s uid = some buyer)
    (hbal : product.price * q ≤ buyer.walletBalance)
    (hq1 : 1 ≤ q)
    (hinv : q + 1 ≤ (availableItemsOf s pid).length)
    (hcontent : ∀ it ∈ s.items, ¬ it.content = "")
    (hnoself : ∀ r ∈ s.referrals, r.referredId = uid → r.referrerId ≠ uid) :
    (postOrders s uid pid q PaymentMethod.wallet now none).2 =
        PostOrderResult.ok s.nextOrderId ∧
    getUser (postOrders s uid pid q PaymentMethod.wallet now none).1 uid =
        some { buyer with walletBalance := buyer.walletBalance - product.price * q } ∧
    ((postOrders s uid pid q PaymentMethod.wallet now none).1.txs.countP (fun t =>
        decide (t.userId = uid ∧ t.type = TxType.debit ∧ t.amount = product.price * q)))
      = (s.txs.countP (fun t =>
          decide (t.userId = uid ∧ t.type = TxType.debit ∧ t.amount = product.price * q))) + 1 ∧
    ((postOrders s uid pid q PaymentMethod.wallet now none).1.items.countP (fun it =>
        decide (it.productId = pid ∧ it.status = ItemStatus.sold)))
      = (s.items.countP (fun it =>
          decide (it.productId = pid ∧ it.status = ItemStatus.sold))) + q ∧
    (∃ picks : List ProductItem,
      picks.length = q ∧
      (picks.map (fun it => it.id)).Nodup ∧
      (∀ p2 ∈ picks, ∃ it ∈ s.items, it.id = p2.id ∧ it.productId = pid ∧
        it.content = p2.content ∧ logicallyAvailable it now) ∧
      orderById (postOrders s uid pid q PaymentMethod.wallet now none).1 s.nextOrderId =
        some { id := s.nextOrderId, buyerId := uid, sellerId := product.sellerId,
               productId := pid, productItemId := (picks.map (fun it => it.id)).head?,
               quantity := q, price := product.price * q,
               paymentMethod := PaymentMethod.wallet, status := OrderStatus.paid,
               deliveredContent := some (joinContents (picks.map (fun it => it.content))),
               createdAt := now }) := by
  have hT : ¬ now + thirtyMinutesMs < now := by omega
  obtain ⟨hlen, hnd, hcorr⟩ := wallet_picks_spec s pid now q it0 hWFi hit0 hinv
  have hsold := wallet_sold_count s pid now q it0 hWFi hit0 hinv
  -- the delivered payload is nonempty
  have hpne : (getAvailableProductItems
      (reserveProductItem s it0.id (now + thirtyMinutesMs)) pid q now).2 ≠ [] := by
    intro e
    rw [e] at hlen
    simp at hlen
    omega
  obtain ⟨a, t, hcons⟩ := List.exists_cons_of_ne_nil hpne
  have hd : ¬ joinContents (((getAvailableProductItems
      (reserveProductItem s it0.id (now + thirtyMinutesMs)) pid q now).2).map
        (fun it => it.content)) = "" := by
    rw [hcons, List.map_cons]
    apply joinContents_ne_empty
    have hamem : a ∈ (getAvailableProductItems
        (reserveProductItem s it0.id (now + thirtyMinutesMs)) pid q now).2 := by
      rw [hcons]
      exact List.mem_cons_self a t
    rcases hcorr a hamem with ⟨it, hitmem, _, _, hitc, _, _⟩
    rw [← hitc]
    exact hcontent it hitmem
  have hmain : postOrders s uid pid q PaymentMethod.wallet now none =
      (runReferralFlow
        (createPendingEarning
          (updateProductStock
            (updateOrderDeliveredContent
              (createOrder (createWalletTransaction (updateUserBalance
                  (markItemsSold
                    (getAvailableProductItems
                      (reserveProductItem s it0.id (now + thirtyMinutesMs)) pid q now).1
                    (getAvailableProductItems
                      (reserveProductItem s it0.id (now + thirtyMinutesMs)) pid q now).2)
                  uid (buyer.walletBalance - product.price * q))
                  uid TxType.debit (product.price * q) none)
                uid product.sellerId pid
                ((getAvailableProductItems
                  (reserveProductItem s it0.id (now + thirtyMinutesMs)) pid q now).2.map
                    (fun it => it.id)).head?
                q (product.price * q) PaymentMethod.wallet OrderStatus.paid now).1
              s.nextOrderId
              (joinContents (((getAvailableProductItems
                (reserveProductItem s it0.id (now + thirtyMinutesMs)) pid q now).2).map
                  (fun it => it.content))))
            pid (product.stock - q))
          product.sellerId s.nextOrderId (sellerNetAmount (product.price * q))
          (now + threeDaysMs))
        uid s.nextOrderId (product.price * q),
       PostOrderResult.ok s.nextOrderId) := by
    rw [postOrders_wallet_reduce s uid pid q now product it0 buyer hprod hcat hstock hit0
      hbuyer hbal]
    rw [walletFulfill_account _ uid product pid q _ _ now hcat (by omega)]
    rw [walletFinish_eq_account _ uid product pid q _ _ _ _ now hd hcat]
    rw [(markItemsSold_frame (getAvailableProductItems
        (reserveProductItem s it0.id (now + thirtyMinutesMs)) pid q now).1
      (getAvailableProductItems
        (reserveProductItem s it0.id (now + thirtyMinutesMs)) pid q now).2).2.2.2.2.2.1]
    rw [show (getAvailableProductItems
        (reserveProductItem s it0.id (now + thirtyMinutesMs)) pid q now).1.nextOrderId
      = s.nextOrderId from rfl]
  refine ⟨by rw [hmain], ?_, ?_, ?_, ?_⟩
  · -- buyer balance
    rw [hmain]
    rw [runReferralFlow_getUser_frame _ uid s.nextOrderId (product.price * q) uid ?hns]
    case hns =>
      intro r hr hrb
      apply hnoself r ?_ hrb
      have e : (createPendingEarning
          (updateProductStock
            (updateOrderDeliveredContent
              (createOrder (createWalletTransaction (updateUserBalance
                  (markItemsSold
                    (getAvailableProductItems
                      (reserveProductItem s it0.id (now + thirtyMinutesMs)) pid q now).1
                    (getAvailableProductItems
                      (reserveProductItem s it0.id (now + thirtyMinutesMs)) pid q now).2)
                  uid (buyer.walletBalance - product.price * q))
                  uid TxType.debit (product.price * q) none)
                uid product.sellerId pid
                ((getAvailableProductItems
                  (reserveProductItem s it0.id (now + thirtyMinutesMs)) pid q now).2.map
                    (fun it => it.id)).head?
                q (product.price * q) PaymentMethod.wallet OrderStatus.paid now).1
              s.nextOrderId
              (joinContents (((getAvailableProductItems
                (reserveProductItem s it0.id (now + thirtyMinutesMs)) pid q now).2).map
                  (fun it => it.content))))
            pid (product.stock - q))
          product.sellerId s.nextOrderId (sellerNetAmount (product.price * q))
          (now + threeDaysMs)).referrals = s.referrals :=
        (markItemsSold_frame _ _).2.2.2.2.1
      rw [e] at hr
      exact hr
    show getUser (updateUserBalance
        (markItemsSold
          (getAvailableProductItems
            (reserveProductItem s it0.id (now + thirtyMinutesMs)) pid q now).1
          (getAvailableProductItems
            (reserveProductItem s it0.id (now + thirtyMinutesMs)) pid q now).2)
        uid (buyer.walletBalance - product.price * q)) uid = _
    rw [getUser_updateUserBalance, getUser_markItemsSold]
    rw [show getUser (getAvailableProductItems
        (reserveProductItem s it0.id (now + thirtyMinutesMs)) pid q now).1 uid
      = getUser s uid from rfl, hbuyer]
    rfl
  · -- debit transaction count
    rw [hmain]
    rw [runReferralFlow_countP_txs _ uid s.nextOrderId (product.price * q) _ ?hcred]
    case hcred =>
      intro tx htx
      rw [decide_eq_false_iff_not]
      intro hcon
      rw [htx] at hcon
      exact absurd hcon.2.1 (by simp)
    show ((markItemsSold
        (getAvailableProductItems
          (reserveProductItem s it0.id (now + thirtyMinutesMs)) pid q now).1
        (getAvailableProductItems
          (reserveProductItem s it0.id (now + thirtyMinutesMs)) pid q now).2).txs
      ++ [({ userId := uid, type := TxType.debit, amount := product.price * q,
             relatedOrderId := none } : WalletTransaction)]).countP (fun t =>
        decide (t.userId = uid ∧ t.type = TxType.debit ∧ t.amount = product.price * q))
      = (s.txs.countP (fun t =>
          decide (t.userId = uid ∧ t.type = TxType.debit ∧ t.amount = product.price * q))) + 1
    rw [List.countP_append,
      (markItemsSold_frame _ _).2.1]
    have e2 : (getAvailableProductItems
        (reserveProductItem s it0.id (now + thirtyMinutesMs)) pid q now).1.txs = s.txs := rfl
    rw [e2]
    simp [List.countP_cons]
  · -- sold count
    rw [hmain]
    rw [(runReferralFlow_frame _ uid s.nextOrderId (product.price * q)).1]
    show ((markItemsSold
        (getAvailableProductItems
          (reserveProductItem s it0.id (now + thirtyMinutesMs)) pid q now).1
        (getAvailableProductItems
          (reserveProductItem s it0.id (now + thirtyMinutesMs)) pid q now).2).items).countP
        (fun it => decide (it.productId = pid ∧ it.status = ItemStatus.sold))
      = (s.items.countP (fun it =>
          decide (it.productId = pid ∧ it.status = ItemStatus.sold))) + q
    exact hsold
  · -- the order row and the picked units
    refine ⟨(getAvailableProductItems
        (reserveProductItem s it0.id (now + thirtyMinutesMs)) pid q now).2,
      hlen, hnd, ?_, ?_⟩
    · intro p2 hp2
      rcases hcorr p2 hp2 with ⟨it, hmem, h1, h2, h3, h4, _⟩
      exact ⟨it, hmem, h1, h2, h3, h4⟩
    · rw [hmain]
      unfold orderById
      rw [(runReferralFlow_frame _ uid s.nextOrderId (product.price * q)).2.1]
      have hnid2 : (markItemsSold
          (getAvailableProductItems
            (reserveProductItem s it0.id (now + thirtyMinutesMs)) pid q now).1
          (getAvailableProductItems
            (reserveProductItem s it0.id (now + thirtyMinutesMs)) pid q now).2).nextOrderId
          = s.nextOrderId := (markItemsSold_frame _ _).2.2.2.2.2.1
      show (((markItemsSold
          (getAvailableProductItems
            (reserveProductItem s it0.id (now + thirtyMinutesMs)) pid q now).1
          (getAvailableProductItems
            (reserveProductItem s it0.id (now + thirtyMinutesMs)) pid q now).2).orders
        ++ [({ id := (markItemsSold
                 (getAvailableProductItems
                   (reserveProductItem s it0.id (now + thirtyMinutesMs)) pid q now).1
                 (getAvailableProductItems
                   (reserveProductItem s it0.id (now + thirtyMinutesMs)) pid q now).2).nextOrderId,
               buyerId := uid, sellerId := product.sellerId,
               productId := pid,
               productItemId := ((getAvailableProductItems
                 (reserveProductItem s it0.id (now + thirtyMinutesMs)) pid q now).2.map
                   (fun it => it.id)).head?,
               quantity := q, price := product.price * q,
               paymentMethod := PaymentMethod.wallet, status := OrderStatus.paid,
               deliveredContent := none, createdAt := now } : Order)]).map
          (fun o2 => if o2.id = s.nextOrderId then
            { o2 with deliveredContent := some (joinContents
                (((getAvailableProductItems
                  (reserveProductItem s it0.id (now + thirtyMinutesMs)) pid q now).2).map
                    (fun it => it.content))) }
          else o2)).find? (fun o => decide (o.id = s.nextOrderId)) = _
      rw [hnid2, (markItemsSold_frame _ _).1]
      have e3 : (getAvailableProductItems
          (reserveProductItem s it0.id (now + thirtyMinutesMs)) pid q now).1.orders = s.orders := rfl
      rw [e3]
      refine orderById_append_upd s.orders
        ({ id := s.nextOrderId, buyerId := uid, sellerId := product.sellerId,
           productId := pid,
           productItemId := ((getAvailableProductItems
             (reserveProductItem s it0.id (now + thirtyMinutesMs)) pid q now).2.map
               (fun it => it.id)).head?,
           quantity := q, price := product.price * q,
           paymentMethod := PaymentMethod.wallet, status := OrderStatus.paid,
           deliveredContent := none, createdAt := now } : Order)
        (joinContents (((getAvailableProductItems
          (reserveProductItem s it0.id (now + thirtyMinutesMs)) pid q now).2).map
            (fun it => it.content))) ?hfr
      case hfr =>
        intro o2 h2
        show ¬ o2.id = s.nextOrderId
        have h3 := hfresh o2 h2
        omega


theorem find?_append_order (orders : List Order) (o : Order)
    (hf : ∀ o2 ∈ orders, ¬ o2.id = o.id) :
    (orders ++ [o]).find? (fun x => decide (x.id = o.id)) = some o := by
  induction orders with
  | nil => simp [List.find?_cons]
  | cons a t ih =>
    have e0 : decide (a.id = o.id) = false := by
      rw [decide_eq_false_iff_not]; exact hf a (by simp)
    simp only [List.cons_append, List.find?_cons, e0]
    exact ih (fun o2 h => hf o2 (by simp [h]))

theorem wallet_software_success_effects (s : Store) (uid pid q now : Nat)
    (product : Product) (buyer : User)
    (hfresh : ∀ o ∈ s.orders, o.id < s.nextOrderId)
    (hprod : getProductWithSeller s pid = some product)
    (hcat : product.category = Category.software)
    (hbuyer : getUser s uid = some buyer)
    (hbal : product.price * q ≤ buyer.walletBalance)
    (hnoself : ∀ r ∈ s.referrals, r.referredId = uid → r.referrerId ≠ uid) :
    (postOrders s uid pid q PaymentMethod.wallet now none).2 =
        PostOrderResult.ok s.nextOrderId ∧
    getUser (postOrders s uid pid q PaymentMethod.wallet now none).1 uid =
        some { buyer with walletBalance := buyer.walletBalance - product.price * q } ∧
    ((postOrders s uid pid q PaymentMethod.wallet now none).1.txs.countP (fun t =>
        decide (t.userId = uid ∧ t.type = TxType.debit ∧ t.amount = product.price * q)))
      = (s.txs.countP (fun t =>
          decide (t.userId = uid ∧ t.type = TxType.debit ∧ t.amount = product.price * q))) + 1 ∧
    (postOrders s uid pid q PaymentMethod.wallet now none).1.items = s.items ∧
    orderById (postOrders s uid pid q PaymentMethod.wallet now none).1 s.nextOrderId =
      some { id := s.nextOrderId, buyerId := uid, sellerId := product.sellerId,
             productId := pid, productItemId := none, quantity := q,
             price := product.price * q, paymentMethod := PaymentMethod.wallet,
             status := OrderStatus.paid, deliveredContent := none, createdAt := now } := by
  have hcat2 : ¬ product.category = Category.account := by
    rw [hcat]
    intro hcon
    cases hcon
  have hmain : postOrders s uid pid q PaymentMethod.wallet now none =
      (runReferralFlow
        (createPendingEarning
          (createOrder (createWalletTransaction (updateUserBalance s uid
              (buyer.walletBalance - product.price * q))
              uid TxType.debit (product.price * q) none)
            uid product.sellerId pid none q (product.price * q) PaymentMethod.wallet
            OrderStatus.paid now).1
          product.sellerId s.nextOrderId (sellerNetAmount (product.price * q))
          (now + threeDaysMs))
        uid s.nextOrderId (product.price * q),
       PostOrderResult.ok s.nextOrderId) := by
    unfold postOrders
    simp only [hprod]
    rw [if_neg (fun hcon => hcat2 hcon.1)]
    rw [if_neg hcat2]
    dsimp only
    rw [hbuyer]
    dsimp only
    rw [if_neg (not_lt.mpr hbal)]
    unfold walletFulfill
    rw [if_neg hcat2]
    exact walletFinish_eq_software s uid product pid q (product.price * q)
      buyer.walletBalance now hcat2
  refine ⟨by rw [hmain], ?_, ?_, ?_, ?_⟩
  · rw [hmain]
    rw [runReferralFlow_getUser_frame _ uid s.nextOrderId (product.price * q) uid ?hns2]
    case hns2 =>
      intro r hr hrb
      exact hnoself r hr hrb
    show getUser (updateUserBalance s uid (buyer.walletBalance - product.price * q)) uid = _
    rw [getUser_updateUserBalance, hbuyer]
    rfl
  · rw [hmain]
    rw [runReferralFlow_countP_txs _ uid s.nextOrderId (product.price * q) _ ?hcred2]
    case hcred2 =>
      intro tx htx
      rw [decide_eq_false_iff_not]
      intro hcon
      rw [htx] at hcon
      exact absurd hcon.2.1 (by simp)
    show ((s.txs
      ++ [({ userId := uid, type := TxType.debit, amount := product.price * q,
             relatedOrderId := none } : WalletTransaction)]).countP (fun t =>
        decide (t.userId = uid ∧ t.type = TxType.debit ∧ t.amount = product.price * q)))
      = (s.txs.countP (fun t =>
          decide (t.userId = uid ∧ t.type = TxType.debit ∧ t.amount = product.price * q))) + 1
    rw [List.countP_append]
    simp [List.countP_cons]
  · rw [hmain]
    rw [(runReferralFlow_frame _ uid s.nextOrderId (product.price * q)).1]
    rfl
  · rw [hmain]
    unfold orderById
    rw [(runReferralFlow_frame _ uid s.nextOrderId (product.price * q)).2.1]
    refine find?_append_order s.orders
      ({ id := s.nextOrderId, buyerId := uid, sellerId := product.sellerId,
         productId := pid, productItemId := none, quantity := q,
         price := product.price * q, paymentMethod := PaymentMethod.wallet,
         status := OrderStatus.paid, deliveredContent := none, createdAt := now } : Order) ?hfr2
    case hfr2 =>
      intro o2 h2
      show ¬ o2.id = s.nextOrderId
      have h3 := hfresh o2 h2
      omega

theorem wallet_failure_users_unchanged (s : Store) (uid pid q now : Nat) (e : OrderError)
    (h : (postOrders s uid pid q PaymentMethod.wallet now none).2 = PostOrderResult.err e) :
    (postOrders s uid pid q PaymentMethod.wallet now none).1.users = s.users := by
  unfold postOrders at h ⊢
  cases hp : getProductWithSeller s pid with
  | none => simp only [hp] at h ⊢
  | some product =>
    simp only [hp] at h ⊢
    by_cases hst : product.category = Category.account ∧ product.stock < (q : Int)
    · rw [if_pos hst] at h ⊢
    · rw [if_neg hst] at h ⊢
      by_cases hcat : product.category = Category.account
      · rw [if_pos hcat] at h ⊢
        cases hit : getAvailableProductItem s pid with
        | some item =>
          simp only [hit] at h ⊢
          rw [getUser_reserveProductItem] at h ⊢
          cases hbu : getUser s uid with
          | none =>
            simp only [hbu] at h ⊢
            rfl
          | some buyer =>
            simp only [hbu] at h ⊢
            by_cases hb : buyer.walletBalance < product.price * q
            · rw [if_pos hb] at h ⊢
              rfl
            · rw [if_neg hb] at h ⊢
              unfold walletFulfill at h ⊢
              rw [if_pos hcat] at h ⊢
              dsimp only at h ⊢
              by_cases hlen : (getAvailableProductItems
                  (reserveProductItem s item.id (now + thirtyMinutesMs)) pid q now).2.length < q
              · rw [if_pos hlen] at h ⊢
                rfl
              · rw [if_neg hlen] at h ⊢
                rw [show faultHit none 1 = false from rfl] at h
                unfold walletFinish at h
                simp only [faultHit_none, Bool.false_eq_true, if_false] at h
                cases h
        | none =>
          simp only [hit] at h ⊢
          cases hbu : getUser s uid with
          | none => simp only [hbu] at h ⊢
          | some buyer =>
            simp only [hbu] at h ⊢
            by_cases hb : buyer.walletBalance < product.price * q
            · rw [if_pos hb] at h ⊢
            · rw [if_neg hb] at h ⊢
              unfold walletFulfill at h ⊢
              rw [if_pos hcat] at h ⊢
              dsimp only at h ⊢
              by_cases hlen : (getAvailableProductItems s pid q now).2.length < q
              · rw [if_pos hlen] at h ⊢
                rfl
              · rw [if_neg hlen] at h ⊢
                rw [show faultHit none 1 = false from rfl] at h
                unfold walletFinish at h
                simp only [faultHit_none, Bool.false_eq_true, if_false] at h
                cases h
      · rw [if_neg hcat] at h ⊢
        dsimp only at h ⊢
        cases hbu : getUser s uid with
        | none => simp only [hbu] at h ⊢
        | some buyer =>
          simp only [hbu] at h ⊢
          by_cases hb : buyer.walletBalance < product.price * q
          · rw [if_pos hb] at h ⊢
          · rw [if_neg hb] at h ⊢
            unfold walletFulfill at h ⊢
            rw [if_neg hcat] at h ⊢
            unfold walletFinish at h
            simp only [faultHit_none, Bool.false_eq_true, if_false] at h
            cases h

/-- C2: on the wallet path with no storage fault, a successful purchase of an
account-category product debits the buyer by exactly price*quantity, records one
debit wallet transaction of that amount, flips exactly `quantity` units of the
product from available to sold, and attaches their contents to the paid order as
delivered content; for a software-category product the debit and transaction are
the same, inventory is untouched and the order carries no delivered content; and
whenever order creation fails with an error, the users table (hence the buyer's
balance) is unchanged. -/
theorem C2_wallet_purchase_effects :
    (∀ (s : Store) (uid pid q now : Nat)
        (product : Product) (it0 : ProductItem) (buyer : User),
      (s.items.map (fun it => it.id)).Nodup →
      (∀ o ∈ s.orders, o.id < s.nextOrderId) →
      getProductWithSeller s pid = some product →
      product.category = Category.account →
      (q : Int) ≤ product.stock →
      getAvailableProductItem s pid = some it0 →
      getUser s uid = some buyer →
      product.price * q ≤ buyer.walletBalance →
      1 ≤ q →
      q + 1 ≤ (availableItemsOf s pid).length →
      (∀ it ∈ s.items, ¬ it.content = "") →
      (∀ r ∈ s.referrals, r.referredId = uid → r.referrerId ≠ uid) →
    (postOrders s uid pid q PaymentMethod.wallet now none).2 =
        PostOrderResult.ok s.nextOrderId ∧
    getUser (postOrders s uid pid q PaymentMethod.wallet now none).1 uid =
        some { buyer with walletBalance := buyer.walletBalance - product.price * q } ∧
    ((postOrders s uid pid q PaymentMethod.wallet now none).1.txs.countP (fun t =>
        decide (t.userId = uid ∧ t.type = TxType.debit ∧ t.amount = product.price * q)))
      = (s.txs.countP (fun t =>
          decide (t.userId = uid ∧ t.type = TxType.debit ∧ t.amount = product.price * q))) + 1 ∧
    ((postOrders s uid pid q PaymentMethod.wallet now none).1.items.countP (fun it =>
        decide (it.productId = pid ∧ it.status = ItemStatus.sold)))
      = (s.items.countP (fun it =>
          decide (it.productId = pid ∧ it.status = ItemStatus.sold))) + q ∧
    (∃ picks : List ProductItem,
      picks.length = q ∧
      (picks.map (fun it => it.id)).Nodup ∧
      (∀ p2 ∈ picks, ∃ it ∈ s.items, it.id = p2.id ∧ it.productId = pid ∧
        it.content = p2.content ∧ logicallyAvailable it now) ∧
      orderById (postOrders s uid pid q PaymentMethod.wallet now none).1 s.nextOrderId =
        some { id := s.nextOrderId, buyerId := uid, sellerId := product.sellerId,
               productId := pid, productItemId := (picks.map (fun it => it.id)).head?,
               quantity := q, price := product.price * q,
               paymentMethod := PaymentMethod.wallet, status := OrderStatus.paid,
               deliveredContent := some (joinContents (picks.map (fun it => it.content))),
               createdAt := now })) ∧
    (∀ (s : Store) (uid pid q now : Nat) (product : Product) (buyer : User),
      (∀ o ∈ s.orders, o.id < s.nextOrderId) →
      getProductWithSeller s pid = some product →
      product.category = Category.software →
      getUser s uid = some buyer →
      product.price * q ≤ buyer.walletBalance →
      (∀ r ∈ s.referrals, r.referredId = uid → r.referrerId ≠ uid) →
    (postOrders s uid pid q PaymentMethod.wallet now none).2 =
        PostOrderResult.ok s.nextOrderId ∧
    getUser (postOrders s uid pid q PaymentMethod.wallet now none).1 uid =
        some { buyer with walletBalance := buyer.walletBalance - product.price * q } ∧
    ((postOrders s uid pid q PaymentMethod.wallet now none).1.txs.countP (fun t =>
        decide (t.userId = uid ∧ t.type = TxType.debit ∧ t.amount = product.price * q)))
      = (s.txs.countP (fun t =>
          decide (t.userId = uid ∧ t.type = TxType.debit ∧ t.amount = product.price * q))) + 1 ∧
    (postOrders s uid pid q PaymentMethod.wallet now none).1.items = s.items ∧
    orderById (postOrders s uid pid q PaymentMethod.wallet now none).1 s.nextOrderId =
      some { id := s.nextOrderId, buyerId := uid, sellerId := product.sellerId,
             productId := pid, productItemId := none, quantity := q,
             price := product.price * q, paymentMethod := PaymentMethod.wallet,
             status := OrderStatus.paid, deliveredContent := none, createdAt := now }) ∧
    (∀ (s : Store) (uid pid q now : Nat) (e : OrderError),
      (postOrders s uid pid q PaymentMethod.wallet now none).2 = PostOrderResult.err e →
      (postOrders s uid pid q PaymentMethod.wallet now none).1.users = s.users) :=
  ⟨fun s uid pid q now product it0 buyer h1 h2 h3 h4 h5 h6 h7 h8 h9 h10 h11 h12 =>
    wallet_account_success_effects s uid pid q now product it0 buyer
      h1 h2 h3 h4 h5 h6 h7 h8 h9 h10 h11 h12,
   fun s uid pid q now product buyer h1 h2 h3 h4 h5 h6 =>
    wallet_software_success_effects s uid pid q now product buyer h1 h2 h3 h4 h5 h6,
   fun s uid pid q now e h =>
    wallet_failure_users_unchanged s uid pid q now e h⟩

theorem C2_wallet_purchase_effects_witness :
    (postOrders storeBase 1 10 1 PaymentMethod.wallet 1000 none).2 =
        PostOrderResult.ok storeBase.nextOrderId ∧
    getUser (postOrders storeBase 1 10 1 PaymentMethod.wallet 1000 none).1 1 =
        some { buyer1 with walletBalance := buyer1.walletBalance - listing10.price * 1 } :=
  ⟨(C2_wallet_purchase_effects.1 storeBase 1 10 1 1000 listing10 unit100 buyer1
      (by decide) (by decide) (by decide) (by decide) (by decide) (by decide)
      (by decide) (by decide) (by decide) (by decide) (by decide) (by decide)).1,
   (C2_wallet_purchase_effects.1 storeBase 1 10 1 1000 listing10 unit100 buyer1
      (by decide) (by decide) (by decide) (by decide) (by decide) (by decide)
      (by decide) (by decide) (by decide) (by decide) (by decide) (by decide)).2.1⟩


theorem adminRelease_nonpending (s : Store) (eid : Nat) (now : Nat) (e : PendingEarning)
    (hfind : s.earnings.find? (fun x => decide (x.id = eid)) = some e)
    (hst : ¬ e.status = EarningStatus.pending) :
    adminReleasePendingEarning s eid now = (s, false) := by
  unfold adminReleasePendingEarning
  rw [hfind]
  dsimp only
  rw [if_pos hst]

theorem releaseJob_no_pending (s : Store) (now : Nat)
    (h : ∀ e ∈ s.earnings, ¬ (e.status = EarningStatus.pending ∧ e.releaseAt ≤ now)) :
    releaseEarningsJob s now = s := by
  unfold releaseEarningsJob
  have hnil : s.earnings.filter (fun e =>
      decide (e.status = EarningStatus.pending ∧ e.releaseAt ≤ now)) = [] := by
    rw [List.filter_eq_nil_iff]
    intro e he
    simp only [decide_eq_true_eq]
    exact h e he
  rw [hnil]
  rfl

/-- C4: releasing the same pending earning twice, via the admin release
endpoint or the auto-release job in any sequential combination, credits the
seller exactly once: on a store holding one due pending earning both routes
produce the same released store with the seller credited once and one credit
transaction appended, and on that store a second admin release reports
failure and a second job run changes nothing. -/
theorem C4_release_credits_once (s : Store) (e : PendingEarning) (seller : User) (now : Nat)
    (hE : s.earnings = [e])
    (hst : e.status = EarningStatus.pending)
    (hdue : e.releaseAt ≤ now)
    (hseller : getUser s e.sellerId = some seller) :
    (adminReleasePendingEarning s e.id now).2 = true ∧
    releaseEarningsJob s now = (adminReleasePendingEarning s e.id now).1 ∧
    adminReleasePendingEarning (adminReleasePendingEarning s e.id now).1 e.id now
      = ((adminReleasePendingEarning s e.id now).1, false) ∧
    releaseEarningsJob (adminReleasePendingEarning s e.id now).1 now
      = (adminReleasePendingEarning s e.id now).1 ∧
    getUser (adminReleasePendingEarning s e.id now).1 e.sellerId
      = some { seller with walletBalance := seller.walletBalance + e.amount } ∧
    (adminReleasePendingEarning s e.id now).1.txs
      = s.txs ++ [{ userId := e.sellerId, type := TxType.credit, amount := e.amount,
                    relatedOrderId := some e.orderId }] := by
  have hfind : s.earnings.find? (fun x => decide (x.id = e.id)) = some e := by
    rw [hE]
    simp [List.find?_cons]
  have hg : getUser (releasePendingEarningOp s e.id now) e.sellerId = some seller := hseller
  have hred : adminReleasePendingEarning s e.id now =
      (createWalletTransaction
         (updateUserBalance (releasePendingEarningOp s e.id now) e.sellerId
           (seller.walletBalance + e.amount))
         e.sellerId TxType.credit e.amount (some e.orderId), true) := by
    unfold adminReleasePendingEarning
    rw [hfind]
    dsimp only
    rw [if_neg (by simp [hst])]
    rw [hg]
  have hE2 : (adminReleasePendingEarning s e.id now).1.earnings =
      [{ e with status := EarningStatus.released, releasedAt := some now }] := by
    rw [hred]
    show s.earnings.map (fun x =>
      if x.id = e.id then { x with status := EarningStatus.released, releasedAt := some now }
      else x) = _
    rw [hE]
    simp
  refine ⟨by rw [hred], ?_, ?_, ?_, ?_, by rw [hred]; rfl⟩
  · unfold releaseEarningsJob
    rw [hE]
    rw [show ([e].filter (fun x =>
        decide (x.status = EarningStatus.pending ∧ x.releaseAt ≤ now))) = [e] from by
      simp [List.filter, hst, hdue]]
    show releaseOneEarning s e now = _
    unfold releaseOneEarning
    dsimp only
    rw [hg, hred]
  · have hfind2 : (adminReleasePendingEarning s e.id now).1.earnings.find?
        (fun x => decide (x.id = e.id))
        = some { e with status := EarningStatus.released, releasedAt := some now } := by
      rw [hE2]
      simp [List.find?_cons]
    exact adminRelease_nonpending _ e.id now _ hfind2 (by simp)
  · refine releaseJob_no_pending _ now ?_
    intro x hx
    rw [hE2] at hx
    simp at hx
    rw [hx]
    simp
  · rw [hred]
    show getUser (updateUserBalance (releasePendingEarningOp s e.id now) e.sellerId
        (seller.walletBalance + e.amount)) e.sellerId = _
    rw [getUser_updateUserBalance]
    rw [hg]
    rfl


theorem C4_release_credits_once_witness :
    (adminReleasePendingEarning storePendingEarning 70 100).2 = true ∧
    adminReleasePendingEarning (adminReleasePendingEarning storePendingEarning 70 100).1 70 100
      = ((adminReleasePendingEarning storePendingEarning 70 100).1, false) ∧
    getUser (adminReleasePendingEarning storePendingEarning 70 100).1 2
      = some { seller2 with walletBalance := seller2.walletBalance + 9500 } := by
  have h := C4_release_credits_once storePendingEarning
      { id := 70, sellerId := 2, orderId := 5, amount := 9500,
        status := EarningStatus.pending, releaseAt := 100, releasedAt := none }
      seller2 100 (by decide) (by decide) (by decide) (by decide)
  exact ⟨h.1, h.2.2.1, h.2.2.2.2.1⟩


theorem walletFinish_earnings (s : Store) (uid : Nat) (product : Product)
    (pid q : Nat) (total bal : Int) (d : String) (ids : List Nat) (now : Nat) :
    (walletFinish s uid product pid q total bal d ids now none).1.earnings
      = s.earnings ++ [{ id := s.nextEarningId, sellerId := product.sellerId,
                         orderId := s.nextOrderId, amount := sellerNetAmount total,
                         status := EarningStatus.pending,
                         releaseAt := now + threeDaysMs, releasedAt := none }] := by
  unfold walletFinish
  simp only [faultHit_none, Bool.false_eq_true, if_false]
  rw [(runReferralFlow_frame _ _ _ _).2.2.2.1]
  by_cases hd : d ≠ ""
  · rw [if_pos hd]
    by_cases hc : product.category = Category.account
    · rw [if_pos hc]
      rfl
    · rw [if_neg hc]
      rfl
  · rw [if_neg hd]
    by_cases hc : product.category = Category.account
    · rw [if_pos hc]
      rfl
    · rw [if_neg hc]
      rfl

theorem adminConfirmOrder_earnings (s : Store) (oid now : Nat) (op : Order × Product)
    (hop : getOrderWithDetails s oid = some op) :
    (adminConfirmOrder s oid now).1.earnings
      = s.earnings ++ [{ id := s.nextEarningId, sellerId := op.1.sellerId,
                         orderId := op.1.id, amount := sellerNetAmount op.1.price,
                         status := EarningStatus.pending,
                         releaseAt := now + threeDaysMs, releasedAt := none }] := by
  unfold adminConfirmOrder
  rw [hop]
  dsimp only
  rw [(runReferralFlow_frame _ _ _ _).2.2.2.1]
  cases hpi : op.1.productItemId with
  | none =>
    by_cases hc : op.2.category = Category.account
    · rw [if_pos hc]
      rfl
    · rw [if_neg hc]
      rfl
  | some iid =>
    cases hfi : s.items.find? (fun it => decide (it.id = iid)) with
    | none =>
      dsimp only
      rw [hfi]
      by_cases hc : op.2.category = Category.account
      · rw [if_pos hc]
        rfl
      · rw [if_neg hc]
        rfl
    | some item =>
      dsimp only
      rw [hfi]
      by_cases hc : op.2.category = Category.account
      · rw [if_pos hc]
        rfl
      · rw [if_neg hc]
        rfl

/-- C5 (amended): every order that becomes paid creates exactly one pending
earning for the seller, with amount equal to 95 percent of the order total
rounded half-up to whole cents (sellerNetAmount) and release time equal to
the time of payment plus three days, on both the wallet path and the admin
confirmation path. -/
theorem C5_pending_earning_rounded :
    (∀ (s : Store) (uid pid q now : Nat)
        (product : Product) (it0 : ProductItem) (buyer : User),
      (s.items.map (fun it => it.id)).Nodup →
      getProductWithSeller s pid = some product →
      product.category = Category.account →
      (q : Int) ≤ product.stock →
      getAvailableProductItem s pid = some it0 →
      getUser s uid = some buyer →
      product.price * q ≤ buyer.walletBalance →
      q + 1 ≤ (availableItemsOf s pid).length →
      (postOrders s uid pid q PaymentMethod.wallet now none).1.earnings
        = s.earnings ++ [{ id := s.nextEarningId, sellerId := product.sellerId,
                           orderId := s.nextOrderId,
                           amount := sellerNetAmount (product.price * q),
                           status := EarningStatus.pending,
                           releaseAt := now + threeDaysMs, releasedAt := none }]) ∧
    (∀ (s : Store) (oid now : Nat) (op : Order × Product),
      getOrderWithDetails s oid = some op →
      (adminConfirmOrder s oid now).1.earnings
        = s.earnings ++ [{ id := s.nextEarningId, sellerId := op.1.sellerId,
                           orderId := op.1.id, amount := sellerNetAmount op.1.price,
                           status := EarningStatus.pending,
                           releaseAt := now + threeDaysMs, releasedAt := none }]) := by
  constructor
  · intro s uid pid q now product it0 buyer hWFi hprod hcat hstock hit0 hbuyer hbal hinv
    obtain ⟨hlen, _, _⟩ := wallet_picks_spec s pid now q it0 hWFi hit0 hinv
    rw [postOrders_wallet_reduce s uid pid q now product it0 buyer
        hprod hcat hstock hit0 hbuyer hbal]
    unfold walletFulfill
    rw [if_pos hcat]
    dsimp only
    rw [if_neg (by rw [hlen]; omega)]
    rw [show faultHit none 1 = false from rfl]
    simp only [Bool.false_eq_true, if_false]
    rw [walletFinish_earnings]
    rw [(markItemsSold_frame _ _).2.2.1,
        (markItemsSold_frame _ _).2.2.2.2.2.1,
        (markItemsSold_frame _ _).2.2.2.2.2.2]
    rfl
  · intro s oid now op hop
    exact adminConfirmOrder_earnings s oid now op hop

theorem C5_pending_earning_rounded_witness :
    (postOrders storeBase 1 10 1 PaymentMethod.wallet 1000 none).1.earnings
      = storeBase.earnings ++
        [{ id := storeBase.nextEarningId, sellerId := listing10.sellerId,
           orderId := storeBase.nextOrderId, amount := sellerNetAmount (listing10.price * 1),
           status := EarningStatus.pending, releaseAt := 1000 + threeDaysMs,
           releasedAt := none }] ∧
    (adminConfirmOrder storePaidOrder 5 2000).1.earnings
      = storePaidOrder.earnings ++
        [{ id := storePaidOrder.nextEarningId, sellerId := 2,
           orderId := 5, amount := sellerNetAmount 10000,
           status := EarningStatus.pending, releaseAt := 2000 + threeDaysMs,
           releasedAt := none }] :=
  ⟨C5_pending_earning_rounded.1 storeBase 1 10 1 1000 listing10 unit100 buyer1
      (by decide) (by decide) (by decide) (by decide) (by decide) (by decide)
      (by decide) (by decide),
   C5_pending_earning_rounded.2 storePaidOrder 5 2000
      ({ id := 5, buyerId := 1, sellerId := 2, productId := 10,
         productItemId := some 100, quantity := 1, price := 10000,
         paymentMethod := PaymentMethod.wallet, status := OrderStatus.paid,
         deliveredContent := some "acc1", createdAt := 0 }, listing10)
      (by decide)⟩


theorem adminConfirm_decomp (s : Store) (oid now : Nat) (op : Order × Product)
    (hop : getOrderWithDetails s oid = some op) :
    ∃ mid : Store,
      adminConfirmOrder s oid now =
        (runReferralFlow
          (createPendingEarning mid op.1.sellerId op.1.id (sellerNetAmount op.1.price)
            (now + threeDaysMs))
          op.1.buyerId op.1.id op.1.price, true) ∧
      mid.users = s.users ∧ mid.txs = s.txs ∧ mid.referrals = s.referrals := by
  unfold adminConfirmOrder
  rw [hop]
  dsimp only
  cases hpi : op.1.productItemId with
  | none =>
    by_cases hc : op.2.category = Category.account
    · rw [if_pos hc]
      exact ⟨_, rfl, rfl, rfl, rfl⟩
    · rw [if_neg hc]
      exact ⟨_, rfl, rfl, rfl, rfl⟩
  | some iid =>
    cases hfi : s.items.find? (fun it => decide (it.id = iid)) with
    | none =>
      dsimp only
      rw [hfi]
      by_cases hc : op.2.category = Category.account
      · rw [if_pos hc]
        exact ⟨_, rfl, rfl, rfl, rfl⟩
      · rw [if_neg hc]
        exact ⟨_, rfl, rfl, rfl, rfl⟩
    | some item =>
      dsimp only
      rw [hfi]
      by_cases hc : op.2.category = Category.account
      · rw [if_pos hc]
        exact ⟨_, rfl, rfl, rfl, rfl⟩
      · rw [if_neg hc]
        exact ⟨_, rfl, rfl, rfl, rfl⟩

/-- C6 (amended): when an order becomes paid and the buyer has an active
referral whose commission - the order total times the stored rate (default
5 percent when unset or invalid) rounded half-up to whole cents - is
positive, the referrer's wallet is credited immediately with that rounded
commission, a credit wallet transaction referencing the order is appended,
and the referral row's cumulative totalEarned grows by the same amount; this
holds on the wallet path and on the admin confirmation path. -/
theorem C6_referral_commission_rounded :
    (∀ (s : Store) (uid pid q now : Nat)
        (product : Product) (it0 : ProductItem) (buyer : User)
        (rfr : Referral) (refu : User),
      (s.items.map (fun it => it.id)).Nodup →
      getProductWithSeller s pid = some product →
      product.category = Category.account →
      (q : Int) ≤ product.stock →
      getAvailableProductItem s pid = some it0 →
      getUser s uid = some buyer →
      product.price * q ≤ buyer.walletBalance →
      1 ≤ q →
      q + 1 ≤ (availableItemsOf s pid).length →
      (∀ it ∈ s.items, ¬ it.content = "") →
      getReferralByReferredId s uid = some rfr →
      rfr.isActive = true →
      0 < referralCommissionAmount (product.price * q) (effectiveRateH rfr.commissionRate) →
      getUser s rfr.referrerId = some refu →
      ¬ rfr.referrerId = uid →
      getUser (postOrders s uid pid q PaymentMethod.wallet now none).1 rfr.referrerId
        = some { refu with walletBalance := refu.walletBalance + referralCommissionAmount (product.price * q) (effectiveRateH rfr.commissionRate) } ∧
      (postOrders s uid pid q PaymentMethod.wallet now none).1.txs
        = s.txs ++ [{ userId := uid, type := TxType.debit, amount := product.price * q,
                      relatedOrderId := none },
                    { userId := rfr.referrerId, type := TxType.credit,
                      amount := referralCommissionAmount (product.price * q)
                        (effectiveRateH rfr.commissionRate),
                      relatedOrderId := some s.nextOrderId }] ∧
      (postOrders s uid pid q PaymentMethod.wallet now none).1.referrals
        = s.referrals.map (fun r2 => if r2.id = rfr.id then { r2 with totalEarned := r2.totalEarned + referralCommissionAmount (product.price * q) (effectiveRateH rfr.commissionRate) } else r2)) ∧
    (∀ (s : Store) (oid now : Nat) (op : Order × Product)
        (rfr : Referral) (refu : User),
      getOrderWithDetails s oid = some op →
      getReferralByReferredId s op.1.buyerId = some rfr →
      rfr.isActive = true →
      0 < referralCommissionAmount op.1.price (effectiveRateH rfr.commissionRate) →
      getUser s rfr.referrerId = some refu →
      getUser (adminConfirmOrder s oid now).1 rfr.referrerId
        = some { refu with walletBalance := refu.walletBalance + referralCommissionAmount op.1.price (effectiveRateH rfr.commissionRate) } ∧
      (adminConfirmOrder s oid now).1.txs
        = s.txs ++ [{ userId := rfr.referrerId, type := TxType.credit,
                      amount := referralCommissionAmount op.1.price
                        (effectiveRateH rfr.commissionRate),
                      relatedOrderId := some op.1.id }] ∧
      (adminConfirmOrder s oid now).1.referrals
        = s.referrals.map (fun r2 => if r2.id = rfr.id then { r2 with totalEarned := r2.totalEarned + referralCommissionAmount op.1.price (effectiveRateH rfr.commissionRate) } else r2)) := by
  constructor
  · intro s uid pid q now product it0 buyer rfr refu
    intro hWFi hprod hcat hstock hit0 hbuyer hbal hq1 hinv hcontent hr ha hc href hne
    obtain ⟨hlen, hnd, hcorr⟩ := wallet_picks_spec s pid now q it0 hWFi hit0 hinv
    have hpne : (getAvailableProductItems
                      (reserveProductItem s it0.id (now + thirtyMinutesMs)) pid q now).2 ≠ [] := by
      intro e
      rw [e] at hlen
      simp at hlen
      omega
    obtain ⟨a, t, hcons⟩ := List.exists_cons_of_ne_nil hpne
    have hd : ¬ joinContents (((getAvailableProductItems
                      (reserveProductItem s it0.id (now + thirtyMinutesMs)) pid q now).2).map
          (fun it => it.content)) = "" := by
      rw [hcons, List.map_cons]
      apply joinContents_ne_empty
      have hamem : a ∈ (getAvailableProductItems
                      (reserveProductItem s it0.id (now + thirtyMinutesMs)) pid q now).2 := by
        rw [hcons]
        exact List.mem_cons_self a t
      rcases hcorr a hamem with ⟨it, hitmem, _, _, hitc, _, _⟩
      rw [← hitc]
      exact hcontent it hitmem
    have hmain : postOrders s uid pid q PaymentMethod.wallet now none =
        (runReferralFlow
          (createPendingEarning
          (updateProductStock
            (updateOrderDeliveredContent
              (createOrder (createWalletTransaction (updateUserBalance
                  (markItemsSold
                    (getAvailableProductItems
                      (reserveProductItem s it0.id (now + thirtyMinutesMs)) pid q now).1
                    (getAvailableProductItems
                      (reserveProductItem s it0.id (now + thirtyMinutesMs)) pid q now).2)
                  uid (buyer.walletBalance - product.price * q))
                  uid TxType.debit (product.price * q) none)
                uid product.sellerId pid
                ((getAvailableProductItems
                      (reserveProductItem s it0.id (now + thirtyMinutesMs)) pid q now).2.map
                    (fun it => it.id)).head?
                q (product.price * q) PaymentMethod.wallet OrderStatus.paid now).1
              s.nextOrderId
              (joinContents (((getAvailableProductItems
                      (reserveProductItem s it0.id (now + thirtyMinutesMs)) pid q now).2).map
                  (fun it => it.content))))
            pid (product.stock - q))
          product.sellerId s.nextOrderId (sellerNetAmount (product.price * q))
          (now + threeDaysMs))
          uid s.nextOrderId (product.price * q),
         PostOrderResult.ok s.nextOrderId) := by
      rw [postOrders_wallet_reduce s uid pid q now product it0 buyer hprod hcat hstock hit0
        hbuyer hbal]
      rw [walletFulfill_account _ uid product pid q _ _ now hcat (by omega)]
      rw [walletFinish_eq_account _ uid product pid q _ _ _ _ now hd hcat]
      rw [(markItemsSold_frame (getAvailableProductItems
                      (reserveProductItem s it0.id (now + thirtyMinutesMs)) pid q now).1
        (getAvailableProductItems
                      (reserveProductItem s it0.id (now + thirtyMinutesMs)) pid q now).2).2.2.2.2.2.1]
      rw [show (getAvailableProductItems
                      (reserveProductItem s it0.id (now + thirtyMinutesMs)) pid q now).1.nextOrderId
        = s.nextOrderId from rfl]
    have hrM : getReferralByReferredId
        (createPendingEarning
          (updateProductStock
            (updateOrderDeliveredContent
              (createOrder (createWalletTransaction (updateUserBalance
                  (markItemsSold
                    (getAvailableProductItems
                      (reserveProductItem s it0.id (now + thirtyMinutesMs)) pid q now).1
                    (getAvailableProductItems
                      (reserveProductItem s it0.id (now + thirtyMinutesMs)) pid q now).2)
                  uid (buyer.walletBalance - product.price * q))
                  uid TxType.debit (product.price * q) none)
                uid product.sellerId pid
                ((getAvailableProductItems
                      (reserveProductItem s it0.id (now + thirtyMinutesMs)) pid q now).2.map
                    (fun it => it.id)).head?
                q (product.price * q) PaymentMethod.wallet OrderStatus.paid now).1
              s.nextOrderId
              (joinContents (((getAvailableProductItems
                      (reserveProductItem s it0.id (now + thirtyMinutesMs)) pid q now).2).map
                  (fun it => it.content))))
            pid (product.stock - q))
          product.sellerId s.nextOrderId (sellerNetAmount (product.price * q))
          (now + threeDaysMs)) uid = some rfr := by
      unfold getReferralByReferredId
      show ((markItemsSold (getAvailableProductItems
                      (reserveProductItem s it0.id (now + thirtyMinutesMs)) pid q now).1
          (getAvailableProductItems
                      (reserveProductItem s it0.id (now + thirtyMinutesMs)) pid q now).2).referrals).find?
        (fun r2 => decide (r2.referredId = uid)) = some rfr
      rw [(markItemsSold_frame _ _).2.2.2.2.1]
      exact hr
    have hrefM : getUser (createPendingEarning
          (updateProductStock
            (updateOrderDeliveredContent
              (createOrder (createWalletTransaction (updateUserBalance
                  (markItemsSold
                    (getAvailableProductItems
                      (reserveProductItem s it0.id (now + thirtyMinutesMs)) pid q now).1
                    (getAvailableProductItems
                      (reserveProductItem s it0.id (now + thirtyMinutesMs)) pid q now).2)
                  uid (buyer.walletBalance - product.price * q))
                  uid TxType.debit (product.price * q) none)
                uid product.sellerId pid
                ((getAvailableProductItems
                      (reserveProductItem s it0.id (now + thirtyMinutesMs)) pid q now).2.map
                    (fun it => it.id)).head?
                q (product.price * q) PaymentMethod.wallet OrderStatus.paid now).1
              s.nextOrderId
              (joinContents (((getAvailableProductItems
                      (reserveProductItem s it0.id (now + thirtyMinutesMs)) pid q now).2).map
                  (fun it => it.content))))
            pid (product.stock - q))
          product.sellerId s.nextOrderId (sellerNetAmount (product.price * q))
          (now + threeDaysMs)) rfr.referrerId = some refu := by
      show getUser (updateUserBalance
          (markItemsSold (getAvailableProductItems
                      (reserveProductItem s it0.id (now + thirtyMinutesMs)) pid q now).1
            (getAvailableProductItems
                      (reserveProductItem s it0.id (now + thirtyMinutesMs)) pid q now).2)
          uid (buyer.walletBalance - product.price * q)) rfr.referrerId = some refu
      rw [getUser_updateUserBalance_ne _ _ _ _ hne]
      rw [getUser_markItemsSold]
      exact href
    have heff := runReferralFlow_effect
      (createPendingEarning
          (updateProductStock
            (updateOrderDeliveredContent
              (createOrder (createWalletTransaction (updateUserBalance
                  (markItemsSold
                    (getAvailableProductItems
                      (reserveProductItem s it0.id (now + thirtyMinutesMs)) pid q now).1
                    (getAvailableProductItems
                      (reserveProductItem s it0.id (now + thirtyMinutesMs)) pid q now).2)
                  uid (buyer.walletBalance - product.price * q))
                  uid TxType.debit (product.price * q) none)
                uid product.sellerId pid
                ((getAvailableProductItems
                      (reserveProductItem s it0.id (now + thirtyMinutesMs)) pid q now).2.map
                    (fun it => it.id)).head?
                q (product.price * q) PaymentMethod.wallet OrderStatus.paid now).1
              s.nextOrderId
              (joinContents (((getAvailableProductItems
                      (reserveProductItem s it0.id (now + thirtyMinutesMs)) pid q now).2).map
                  (fun it => it.content))))
            pid (product.stock - q))
          product.sellerId s.nextOrderId (sellerNetAmount (product.price * q))
          (now + threeDaysMs))
      uid s.nextOrderId (product.price * q) rfr refu hrM ha hc hrefM
    refine ⟨?_, ?_, ?_⟩
    · rw [hmain]
      show getUser (runReferralFlow
          (createPendingEarning
          (updateProductStock
            (updateOrderDeliveredContent
              (createOrder (createWalletTransaction (updateUserBalance
                  (markItemsSold
                    (getAvailableProductItems
                      (reserveProductItem s it0.id (now + thirtyMinutesMs)) pid q now).1
                    (getAvailableProductItems
                      (reserveProductItem s it0.id (now + thirtyMinutesMs)) pid q now).2)
                  uid (buyer.walletBalance - product.price * q))
                  uid TxType.debit (product.price * q) none)
                uid product.sellerId pid
                ((getAvailableProductItems
                      (reserveProductItem s it0.id (now + thirtyMinutesMs)) pid q now).2.map
                    (fun it => it.id)).head?
                q (product.price * q) PaymentMethod.wallet OrderStatus.paid now).1
              s.nextOrderId
              (joinContents (((getAvailableProductItems
                      (reserveProductItem s it0.id (now + thirtyMinutesMs)) pid q now).2).map
                  (fun it => it.content))))
            pid (product.stock - q))
          product.sellerId s.nextOrderId (sellerNetAmount (product.price * q))
          (now + threeDaysMs))
          uid s.nextOrderId (product.price * q)) rfr.referrerId = _
      rw [heff]
      show (((createPendingEarning
          (updateProductStock
            (updateOrderDeliveredContent
              (createOrder (createWalletTransaction (updateUserBalance
                  (markItemsSold
                    (getAvailableProductItems
                      (reserveProductItem s it0.id (now + thirtyMinutesMs)) pid q now).1
                    (getAvailableProductItems
                      (reserveProductItem s it0.id (now + thirtyMinutesMs)) pid q now).2)
                  uid (buyer.walletBalance - product.price * q))
                  uid TxType.debit (product.price * q) none)
                uid product.sellerId pid
                ((getAvailableProductItems
                      (reserveProductItem s it0.id (now + thirtyMinutesMs)) pid q now).2.map
                    (fun it => it.id)).head?
                q (product.price * q) PaymentMethod.wallet OrderStatus.paid now).1
              s.nextOrderId
              (joinContents (((getAvailableProductItems
                      (reserveProductItem s it0.id (now + thirtyMinutesMs)) pid q now).2).map
                  (fun it => it.content))))
            pid (product.stock - q))
          product.sellerId s.nextOrderId (sellerNetAmount (product.price * q))
          (now + threeDaysMs))).users.map (fun u =>
          if u.id = rfr.referrerId then
            { u with walletBalance := u.walletBalance + referralCommissionAmount (product.price * q) (effectiveRateH rfr.commissionRate) }
          else u)).find? (fun u => decide (u.id = rfr.referrerId)) = _
      rw [find?_map_balance _ rfr.referrerId (fun u => u.walletBalance +
        referralCommissionAmount (product.price * q) (effectiveRateH rfr.commissionRate))]
      have h2 : ((createPendingEarning
          (updateProductStock
            (updateOrderDeliveredContent
              (createOrder (createWalletTransaction (updateUserBalance
                  (markItemsSold
                    (getAvailableProductItems
                      (reserveProductItem s it0.id (now + thirtyMinutesMs)) pid q now).1
                    (getAvailableProductItems
                      (reserveProductItem s it0.id (now + thirtyMinutesMs)) pid q now).2)
                  uid (buyer.walletBalance - product.price * q))
                  uid TxType.debit (product.price * q) none)
                uid product.sellerId pid
                ((getAvailableProductItems
                      (reserveProductItem s it0.id (now + thirtyMinutesMs)) pid q now).2.map
                    (fun it => it.id)).head?
                q (product.price * q) PaymentMethod.wallet OrderStatus.paid now).1
              s.nextOrderId
              (joinContents (((getAvailableProductItems
                      (reserveProductItem s it0.id (now + thirtyMinutesMs)) pid q now).2).map
                  (fun it => it.content))))
            pid (product.stock - q))
          product.sellerId s.nextOrderId (sellerNetAmount (product.price * q))
          (now + threeDaysMs))).users.find?
          (fun u => decide (u.id = rfr.referrerId)) = some refu := hrefM
      rw [h2]
      rfl
    · rw [hmain]
      show (runReferralFlow
          (createPendingEarning
          (updateProductStock
            (updateOrderDeliveredContent
              (createOrder (createWalletTransaction (updateUserBalance
                  (markItemsSold
                    (getAvailableProductItems
                      (reserveProductItem s it0.id (now + thirtyMinutesMs)) pid q now).1
                    (getAvailableProductItems
                      (reserveProductItem s it0.id (now + thirtyMinutesMs)) pid q now).2)
                  uid (buyer.walletBalance - product.price * q))
                  uid TxType.debit (product.price * q) none)
                uid product.sellerId pid
                ((getAvailableProductItems
                      (reserveProductItem s it0.id (now + thirtyMinutesMs)) pid q now).2.map
                    (fun it => it.id)).head?
                q (product.price * q) PaymentMethod.wallet OrderStatus.paid now).1
              s.nextOrderId
              (joinContents (((getAvailableProductItems
                      (reserveProductItem s it0.id (now + thirtyMinutesMs)) pid q now).2).map
                  (fun it => it.content))))
            pid (product.stock - q))
          product.sellerId s.nextOrderId (sellerNetAmount (product.price * q))
          (now + threeDaysMs))
          uid s.nextOrderId (product.price * q)).txs = _
      rw [heff]
      show ((createPendingEarning
          (updateProductStock
            (updateOrderDeliveredContent
              (createOrder (createWalletTransaction (updateUserBalance
                  (markItemsSold
                    (getAvailableProductItems
                      (reserveProductItem s it0.id (now + thirtyMinutesMs)) pid q now).1
                    (getAvailableProductItems
                      (reserveProductItem s it0.id (now + thirtyMinutesMs)) pid q now).2)
                  uid (buyer.walletBalance - product.price * q))
                  uid TxType.debit (product.price * q) none)
                uid product.sellerId pid
                ((getAvailableProductItems
                      (reserveProductItem s it0.id (now + thirtyMinutesMs)) pid q now).2.map
                    (fun it => it.id)).head?
                q (product.price * q) PaymentMethod.wallet OrderStatus.paid now).1
              s.nextOrderId
              (joinContents (((getAvailableProductItems
                      (reserveProductItem s it0.id (now + thirtyMinutesMs)) pid q now).2).map
                  (fun it => it.content))))
            pid (product.stock - q))
          product.sellerId s.nextOrderId (sellerNetAmount (product.price * q))
          (now + threeDaysMs))).txs ++ _ = _
      have h3 : ((createPendingEarning
          (updateProductStock
            (updateOrderDeliveredContent
              (createOrder (createWalletTransaction (updateUserBalance
                  (markItemsSold
                    (getAvailableProductItems
                      (reserveProductItem s it0.id (now + thirtyMinutesMs)) pid q now).1
                    (getAvailableProductItems
                      (reserveProductItem s it0.id (now + thirtyMinutesMs)) pid q now).2)
                  uid (buyer.walletBalance - product.price * q))
                  uid TxType.debit (product.price * q) none)
                uid product.sellerId pid
                ((getAvailableProductItems
                      (reserveProductItem s it0.id (now + thirtyMinutesMs)) pid q now).2.map
                    (fun it => it.id)).head?
                q (product.price * q) PaymentMethod.wallet OrderStatus.paid now).1
              s.nextOrderId
              (joinContents (((getAvailableProductItems
                      (reserveProductItem s it0.id (now + thirtyMinutesMs)) pid q now).2).map
                  (fun it => it.content))))
            pid (product.stock - q))
          product.sellerId s.nextOrderId (sellerNetAmount (product.price * q))
          (now + threeDaysMs))).txs
          = s.txs ++ [{ userId := uid, type := TxType.debit, amount := product.price * q, relatedOrderId := none }] := by
        show (markItemsSold (getAvailableProductItems
                      (reserveProductItem s it0.id (now + thirtyMinutesMs)) pid q now).1
            (getAvailableProductItems
                      (reserveProductItem s it0.id (now + thirtyMinutesMs)) pid q now).2).txs ++ _ = _
        rw [(markItemsSold_frame _ _).2.1]
        rfl
      rw [h3, List.append_assoc]
      rfl
    · rw [hmain]
      show (runReferralFlow
          (createPendingEarning
          (updateProductStock
            (updateOrderDeliveredContent
              (createOrder (createWalletTransaction (updateUserBalance
                  (markItemsSold
                    (getAvailableProductItems
                      (reserveProductItem s it0.id (now + thirtyMinutesMs)) pid q now).1
                    (getAvailableProductItems
                      (reserveProductItem s it0.id (now + thirtyMinutesMs)) pid q now).2)
                  uid (buyer.walletBalance - product.price * q))
                  uid TxType.debit (product.price * q) none)
                uid product.sellerId pid
                ((getAvailableProductItems
                      (reserveProductItem s it0.id (now + thirtyMinutesMs)) pid q now).2.map
                    (fun it => it.id)).head?
                q (product.price * q) PaymentMethod.wallet OrderStatus.paid now).1
              s.nextOrderId
              (joinContents (((getAvailableProductItems
                      (reserveProductItem s it0.id (now + thirtyMinutesMs)) pid q now).2).map
                  (fun it => it.content))))
            pid (product.stock - q))
          product.sellerId s.nextOrderId (sellerNetAmount (product.price * q))
          (now + threeDaysMs))
          uid s.nextOrderId (product.price * q)).referrals = _
      rw [heff]
      show ((markItemsSold (getAvailableProductItems
                      (reserveProductItem s it0.id (now + thirtyMinutesMs)) pid q now).1
          (getAvailableProductItems
                      (reserveProductItem s it0.id (now + thirtyMinutesMs)) pid q now).2).referrals).map _ = _
      rw [(markItemsSold_frame _ _).2.2.2.2.1]
      rfl
  · intro s oid now op rfr refu hop hr ha hc href
    obtain ⟨mid, hdec, hu, ht, hrf⟩ := adminConfirm_decomp s oid now op hop
    have hrM : getReferralByReferredId
        (createPendingEarning mid op.1.sellerId op.1.id (sellerNetAmount op.1.price)
          (now + threeDaysMs)) op.1.buyerId = some rfr := by
      unfold getReferralByReferredId at hr ⊢
      show mid.referrals.find? _ = some rfr
      rw [hrf]
      exact hr
    have hrefM : getUser
        (createPendingEarning mid op.1.sellerId op.1.id (sellerNetAmount op.1.price)
          (now + threeDaysMs)) rfr.referrerId = some refu := by
      unfold getUser at href ⊢
      show mid.users.find? _ = some refu
      rw [hu]
      exact href
    have heff := runReferralFlow_effect
      (createPendingEarning mid op.1.sellerId op.1.id (sellerNetAmount op.1.price)
        (now + threeDaysMs))
      op.1.buyerId op.1.id op.1.price rfr refu hrM ha hc hrefM
    refine ⟨?_, ?_, ?_⟩
    · rw [hdec]
      show getUser (runReferralFlow _ op.1.buyerId op.1.id op.1.price) rfr.referrerId = _
      rw [heff]
      show ((createPendingEarning mid op.1.sellerId op.1.id (sellerNetAmount op.1.price)
          (now + threeDaysMs)).users.map (fun u =>
          if u.id = rfr.referrerId then
            { u with walletBalance := u.walletBalance + referralCommissionAmount op.1.price (effectiveRateH rfr.commissionRate) }
          else u)).find? (fun u => decide (u.id = rfr.referrerId)) = _
      rw [find?_map_balance _ rfr.referrerId (fun u => u.walletBalance +
        referralCommissionAmount op.1.price (effectiveRateH rfr.commissionRate))]
      have h2 : (createPendingEarning mid op.1.sellerId op.1.id (sellerNetAmount op.1.price)
          (now + threeDaysMs)).users.find?
          (fun u => decide (u.id = rfr.referrerId)) = some refu := hrefM
      rw [h2]
      rfl
    · rw [hdec]
      show (runReferralFlow _ op.1.buyerId op.1.id op.1.price).txs = _
      rw [heff]
      show mid.txs ++ _ = _
      rw [ht]
    · rw [hdec]
      show (runReferralFlow _ op.1.buyerId op.1.id op.1.price).referrals = _
      rw [heff]
      show mid.referrals.map _ = _
      rw [hrf]


theorem C6_referral_commission_rounded_witness :
    getUser (postOrders storeOddPrice 1 11 1 PaymentMethod.wallet 1000 none).1 3
      = some { referrer3 with walletBalance := referrer3.walletBalance +
          referralCommissionAmount (listing11.price * 1) (effectiveRateH (some 500)) } ∧
    (postOrders storeOddPrice 1 11 1 PaymentMethod.wallet 1000 none).1.referrals
      = storeOddPrice.referrals.map (fun r2 => if r2.id = 7 then { r2 with totalEarned := r2.totalEarned + referralCommissionAmount (listing11.price * 1) (effectiveRateH (some 500)) } else r2) := by
  have h := C6_referral_commission_rounded.1 storeOddPrice 1 11 1 1000 listing11 unit110
      buyer1
      ({ id := 7, referrerId := 3, referredId := 1,
         commissionRate := some 500, totalEarned := 0, isActive := true } : Referral)
      referrer3
      (by decide) (by decide) (by decide) (by decide) (by decide) (by decide)
      (by decide) (by decide) (by decide) (by decide) (by decide) (by decide)
      (by decide) (by decide) (by decide)
  exact ⟨h.1, h.2.2⟩


/-- C9 (amended): only the multi-unit read used by the wallet path treats an
expired reservation as available - its sweep flips the unit back to available
(cleared expiry) so it joins the available items of the updated store - while
the single-unit read used at order creation scans the status column only and
returns none when no unit is literally marked available, even if an expired
reservation exists. -/
theorem C9_expired_reservation_reads :
    (∀ (s : Store) (pid n now : Nat) (it : ProductItem),
      it ∈ s.items → it.productId = pid → it.status = ItemStatus.reserved →
      isExpired it.reservedUntil now = true →
      { it with status := ItemStatus.available, reservedUntil := none }
        ∈ availableItemsOf (getAvailableProductItems s pid n now).1 pid) ∧
    (∀ (s : Store) (pid : Nat),
      (∀ it ∈ s.items, it.productId = pid → ¬ it.status = ItemStatus.available) →
      getAvailableProductItem s pid = none) := by
  constructor
  · intro s pid n now it hmem hpid hres hexp
    unfold availableItemsOf
    rw [List.mem_filter]
    constructor
    · show _ ∈ (sweepExpiredForProduct s pid now).items
      unfold sweepExpiredForProduct
      dsimp only
      have he : (fun it2 : ProductItem =>
          if decide (it2.productId = pid ∧ it2.status = ItemStatus.reserved)
              && isExpired it2.reservedUntil now then
            { it2 with status := ItemStatus.available, reservedUntil := none }
          else it2) it
          = { it with status := ItemStatus.available, reservedUntil := none } := by
        simp [hpid, hres, hexp]
      rw [← he]
      exact List.mem_map_of_mem _ hmem
    · simp [hpid]
  · intro s pid h
    unfold getAvailableProductItem
    rw [List.find?_eq_none]
    intro it hmem
    simp only [decide_eq_true_eq]
    intro hcon
    exact h it hmem hcon.1 hcon.2

theorem C9_expired_reservation_reads_witness :
    ({ id := 100, productId := 10, content := "acc1",
       status := ItemStatus.available, reservedUntil := none } : ProductItem)
      ∈ availableItemsOf (getAvailableProductItems storeExpiredReservation 10 1 1000).1 10 ∧
    getAvailableProductItem storeExpiredReservation 10 = none := by
  constructor
  · exact C9_expired_reservation_reads.1 storeExpiredReservation 10 1 1000
      { id := 100, productId := 10, content := "acc1",
        status := ItemStatus.reserved, reservedUntil := some 5 }
      (by decide) (by decide) (by decide) (by decide)
  · exact C9_expired_reservation_reads.2 storeExpiredReservation 10 (by decide)


theorem any_filter_and {α : Type} (l : List α) (p q : α → Bool) :
    (l.filter p).any q = l.any (fun a => p a && q a) := by
  induction l with
  | nil => rfl
  | cons a t ih =>
    by_cases h : p a = true
    · simp [List.filter_cons, h, List.any_cons, ih]
    · simp only [Bool.not_eq_true] at h
      simp [List.filter_cons, h, List.any_cons, ih]

theorem cancelOneExpired_orders (s : Store) (o : Order) :
    (cancelOneExpired s o).orders = s.orders.map (fun o2 =>
      if o2.id = o.id then { o2 with status := OrderStatus.cancelled } else o2) := by
  unfold cancelOneExpired
  cases hpi : o.productItemId with
  | none => rfl
  | some iid => rfl

theorem cancelOneExpired_items (s : Store) (o : Order) :
    (cancelOneExpired s o).items = s.items.map (fun it =>
      if o.productItemId = some it.id then
        { it with status := ItemStatus.available, reservedUntil := none }
      else it) := by
  unfold cancelOneExpired
  cases hpi : o.productItemId with
  | none =>
    show s.items = _
    simp [hpi]
  | some iid =>
    simp only [hpi]
    show s.items.map _ = _
    refine List.map_congr_left ?_
    intro it _
    by_cases h : it.id = iid
    · rw [if_pos h, if_pos (by rw [h])]
    · rw [if_neg h, if_neg (by intro hc; exact h (Option.some.injEq iid it.id ▸ hc).symm)]

theorem cancelOneExpired_frame (s : Store) (o : Order) :
    (cancelOneExpired s o).users = s.users ∧
    (cancelOneExpired s o).txs = s.txs ∧
    (cancelOneExpired s o).earnings = s.earnings ∧
    (cancelOneExpired s o).products = s.products := by
  unfold cancelOneExpired
  cases hpi : o.productItemId with
  | none => exact ⟨rfl, rfl, rfl, rfl⟩
  | some iid => exact ⟨rfl, rfl, rfl, rfl⟩

theorem cancel_fold_orders (os : List Order) (s : Store) :
    (os.foldl (fun acc o => cancelOneExpired acc o) s).orders
      = s.orders.map (fun o2 =>
          if os.any (fun o => decide (o2.id = o.id)) then
            { o2 with status := OrderStatus.cancelled }
          else o2) := by
  induction os generalizing s with
  | nil =>
    show s.orders = _
    simp
  | cons o rest ih =>
    show (rest.foldl (fun acc o => cancelOneExpired acc o) (cancelOneExpired s o)).orders = _
    rw [ih (cancelOneExpired s o)]
    rw [cancelOneExpired_orders]
    rw [List.map_map]
    refine List.map_congr_left ?_
    intro o2 _
    by_cases h1 : o2.id = o.id
    · by_cases h2 : (rest.any fun o3 => decide (o2.id = o3.id)) = true
      · simp [h1, h2, List.any_cons]
      · simp [h1, h2, List.any_cons]
    · by_cases h2 : (rest.any fun o3 => decide (o2.id = o3.id)) = true
      · simp [h1, h2, List.any_cons]
        intro hall
        exfalso
        simp only [List.any_eq_true, decide_eq_true_eq] at h2
        obtain ⟨x, hx, he⟩ := h2
        exact hall x hx he
      · simp [h1, h2, List.any_cons]
        intro x hx he
        exfalso
        simp only [List.any_eq_true, decide_eq_true_eq] at h2
        exact h2 ⟨x, hx, he⟩

theorem cancel_fold_items (os : List Order) (s : Store) :
    (os.foldl (fun acc o => cancelOneExpired acc o) s).items
      = s.items.map (fun it =>
          if os.any (fun o => decide (o.productItemId = some it.id)) then
            { it with status := ItemStatus.available, reservedUntil := none }
          else it) := by
  induction os generalizing s with
  | nil =>
    show s.items = _
    simp
  | cons o rest ih =>
    show (rest.foldl (fun acc o => cancelOneExpired acc o) (cancelOneExpired s o)).items = _
    rw [ih (cancelOneExpired s o)]
    rw [cancelOneExpired_items]
    rw [List.map_map]
    refine List.map_congr_left ?_
    intro it _
    by_cases h1 : o.productItemId = some it.id
    · by_cases h2 : (rest.any fun o3 => decide (o3.productItemId = some it.id)) = true
      · simp [h1, h2, List.any_cons]
      · simp [h1, h2, List.any_cons]
    · by_cases h2 : (rest.any fun o3 => decide (o3.productItemId = some it.id)) = true
      · simp [h1, h2, List.any_cons]
        intro hall
        exfalso
        simp only [List.any_eq_true, decide_eq_true_eq] at h2
        obtain ⟨x, hx, he⟩ := h2
        exact hall x hx he
      · simp [h1, h2, List.any_cons]
        intro x hx he
        exfalso
        simp only [List.any_eq_true, decide_eq_true_eq] at h2
        exact h2 ⟨x, hx, he⟩


theorem cleanup_idempotent_of_none (s : Store) (now : Nat)
    (h : ∀ it ∈ s.items,
      (decide (it.status = ItemStatus.reserved) && isExpired it.reservedUntil now) = false) :
    cleanupExpiredReservations s now = (s, 0) := by
  unfold cleanupExpiredReservations
  have h1 : s.items.map (fun it =>
      if decide (it.status = ItemStatus.reserved) && isExpired it.reservedUntil now then
        { it with status := ItemStatus.available, reservedUntil := none }
      else it) = s.items := by
    rw [List.map_congr_left (fun it hm => by rw [if_neg (by rw [h it hm]; simp)])]
    exact List.map_id' s.items
  have h2 : s.items.filter (fun it =>
      decide (it.status = ItemStatus.reserved) && isExpired it.reservedUntil now) = [] := by
    rw [List.filter_eq_nil_iff]
    intro it hm
    rw [h it hm]
    simp
  rw [h1, h2]
  rfl

theorem cancel_idempotent_of_none (s : Store) (now : Nat)
    (h : ∀ o ∈ s.orders,
      decide (o.status = OrderStatus.pendingPayment ∧ o.createdAt < now - thirtyMinutesMs)
        = false) :
    cancelExpiredPendingOrders s now = (s, 0) := by
  unfold cancelExpiredPendingOrders
  have h2 : s.orders.filter (fun o =>
      decide (o.status = OrderStatus.pendingPayment ∧ o.createdAt < now - thirtyMinutesMs))
        = [] := by
    rw [List.filter_eq_nil_iff]
    intro o hm
    rw [h o hm]
    simp
  rw [h2]
  rfl

theorem cancelExpired_orders_char (s : Store) (now : Nat)
    (hN : (s.orders.map (fun o => o.id)).Nodup) :
    (cancelExpiredPendingOrders s now).1.orders = s.orders.map (fun o =>
      if decide (o.status = OrderStatus.pendingPayment ∧ o.createdAt < now - thirtyMinutesMs)
      then { o with status := OrderStatus.cancelled } else o) := by
  show ((s.orders.filter (fun o =>
      decide (o.status = OrderStatus.pendingPayment ∧ o.createdAt < now - thirtyMinutesMs))).foldl
        (fun acc o => cancelOneExpired acc o) s).orders = _
  rw [cancel_fold_orders]
  refine List.map_congr_left ?_
  intro o2 hmem
  by_cases hp : decide (o2.status = OrderStatus.pendingPayment ∧
      o2.createdAt < now - thirtyMinutesMs) = true
  · rw [if_pos (List.any_eq_true.mpr
      ⟨o2, List.mem_filter.mpr ⟨hmem, hp⟩, by simp⟩)]
    rw [if_pos hp]
  · rw [if_neg ?hc, if_neg hp]
    case hc =>
      intro hc
      obtain ⟨x, hx, he⟩ := List.any_eq_true.mp hc
      obtain ⟨hxmem, hxpred⟩ := List.mem_filter.mp hx
      rw [decide_eq_true_eq] at he
      have hxeq : o2 = x := List.inj_on_of_nodup_map hN hmem hxmem he
      rw [hxeq] at hp
      exact hp hxpred

theorem cancelExpired_items_char (s : Store) (now : Nat) :
    (cancelExpiredPendingOrders s now).1.items = s.items.map (fun it =>
      if s.orders.any (fun o =>
        decide (o.status = OrderStatus.pendingPayment ∧ o.createdAt < now - thirtyMinutesMs)
          && decide (o.productItemId = some it.id)) then
        { it with status := ItemStatus.available, reservedUntil := none }
      else it) := by
  show ((s.orders.filter (fun o =>
      decide (o.status = OrderStatus.pendingPayment ∧ o.createdAt < now - thirtyMinutesMs))).foldl
        (fun acc o => cancelOneExpired acc o) s).items = _
  rw [cancel_fold_items]
  refine List.map_congr_left ?_
  intro it _
  rw [any_filter_and]

/-- C8: the two cleanup sweeps behave as specified.  cleanupExpiredReservations
flips exactly the reserved units whose expiry has passed back to available,
clearing the expiry, leaves orders alone, returns the number of flipped rows
and is idempotent; cancelExpiredPendingOrders cancels exactly the orders still
pending_payment created more than thirty minutes ago, releases each expired
order's bound unit back to available, returns the number of cancelled orders
and (when order ids are distinct) is idempotent. -/
theorem C8_sweeps_behaviour :
    (∀ (s : Store) (now : Nat),
      (cleanupExpiredReservations s now).1.items = s.items.map (fun it =>
        if decide (it.status = ItemStatus.reserved) && isExpired it.reservedUntil now then
          { it with status := ItemStatus.available, reservedUntil := none }
        else it) ∧
      (cleanupExpiredReservations s now).1.orders = s.orders ∧
      (cleanupExpiredReservations s now).2 = (s.items.filter (fun it =>
        decide (it.status = ItemStatus.reserved) && isExpired it.reservedUntil now)).length ∧
      cleanupExpiredReservations (cleanupExpiredReservations s now).1 now
        = ((cleanupExpiredReservations s now).1, 0)) ∧
    (∀ (s : Store) (now : Nat),
      (cancelExpiredPendingOrders s now).1.items = s.items.map (fun it =>
        if s.orders.any (fun o =>
          decide (o.status = OrderStatus.pendingPayment ∧ o.createdAt < now - thirtyMinutesMs)
            && decide (o.productItemId = some it.id)) then
          { it with status := ItemStatus.available, reservedUntil := none }
        else it) ∧
      (cancelExpiredPendingOrders s now).2 = (s.orders.filter (fun o =>
        decide (o.status = OrderStatus.pendingPayment ∧
          o.createdAt < now - thirtyMinutesMs))).length) ∧
    (∀ (s : Store) (now : Nat),
      (s.orders.map (fun o => o.id)).Nodup →
      (cancelExpiredPendingOrders s now).1.orders = s.orders.map (fun o =>
        if decide (o.status = OrderStatus.pendingPayment ∧
            o.createdAt < now - thirtyMinutesMs) then
          { o with status := OrderStatus.cancelled }
        else o) ∧
      cancelExpiredPendingOrders (cancelExpiredPendingOrders s now).1 now
        = ((cancelExpiredPendingOrders s now).1, 0)) := by
  refine ⟨?_, ?_, ?_⟩
  · intro s now
    refine ⟨rfl, rfl, rfl, ?_⟩
    apply cleanup_idempotent_of_none
    intro it2 hmem
    have hm2 : it2 ∈ s.items.map (fun it =>
        if decide (it.status = ItemStatus.reserved) && isExpired it.reservedUntil now then
          { it with status := ItemStatus.available, reservedUntil := none }
        else it) := hmem
    rcases List.mem_map.mp hm2 with ⟨it, hit, rfl⟩
    by_cases hcond : (decide (it.status = ItemStatus.reserved)
        && isExpired it.reservedUntil now) = true
    · rw [if_pos hcond]
      simp
    · simp only [Bool.not_eq_true] at hcond
      rw [if_neg (by rw [hcond]; simp)]
      exact hcond
  · intro s now
    exact ⟨cancelExpired_items_char s now, rfl⟩
  · intro s now hN
    refine ⟨cancelExpired_orders_char s now hN, ?_⟩
    apply cancel_idempotent_of_none
    intro o2 hmem
    have hm2 : o2 ∈ s.orders.map (fun o =>
        if decide (o.status = OrderStatus.pendingPayment ∧
            o.createdAt < now - thirtyMinutesMs) then
          { o with status := OrderStatus.cancelled }
        else o) := by
      rw [← cancelExpired_orders_char s now hN]
      exact hmem
    rcases List.mem_map.mp hm2 with ⟨o, ho, rfl⟩
    by_cases hp : decide (o.status = OrderStatus.pendingPayment ∧
        o.createdAt < now - thirtyMinutesMs) = true
    · rw [if_pos hp]
      simp
    · rw [if_neg hp]
      simp only [Bool.not_eq_true] at hp
      exact hp

theorem C8_sweeps_behaviour_witness :
    (cancelExpiredPendingOrders storeStaleOrder 4000000).1.orders
      = storeStaleOrder.orders.map (fun o =>
        if decide (o.status = OrderStatus.pendingPayment ∧
            o.createdAt < 4000000 - thirtyMinutesMs) then
          { o with status := OrderStatus.cancelled }
        else o) ∧
    cancelExpiredPendingOrders (cancelExpiredPendingOrders storeStaleOrder 4000000).1 4000000
      = ((cancelExpiredPendingOrders storeStaleOrder 4000000).1, 0) ∧
    cleanupExpiredReservations (cleanupExpiredReservations storeStaleOrder 4000000).1 4000000
      = ((cleanupExpiredReservations storeStaleOrder 4000000).1, 0) := by
  have h3 := C8_sweeps_behaviour.2.2 storeStaleOrder 4000000 (by decide)
  exact ⟨h3.1, h3.2, (C8_sweeps_behaviour.1 storeStaleOrder 4000000).2.2.2⟩

end Mmo
